import Mathlib

/-!
Verification development for the CvAnalyzer extraction/normalization core.

The Python sources under `backend/app/extractor/` and `backend/app/schemas.py`
are embedded shallowly: JSON-like dynamic values become the inductive `PyVal`,
Python dicts become association lists with first-occurrence lookup/update
semantics, pure functions become Lean functions, and fallible code returns
`Except String`.  External-service calls are modelled by an oracle
`Nat → Except String PyVal` giving the reply of each successive attempt, and
functions that may call the service also return the number of calls made.
-/

set_option autoImplicit false

namespace CvAnalyzer

/-- JSON-like dynamic value, the shape of data handled by `json.loads` and the
mechanical repair pass in `async_extract.py`. -/
inductive PyVal where
  | none
  | str (s : String)
  | int (n : Int)
  | bool (b : Bool)
  | list (xs : List PyVal)
  | dict (kvs : List (String × PyVal))
  deriving Repr, Inhabited

/-- Is the value a Python list? -/
def PyVal.isList : PyVal → Bool
  | .list _ => true
  | _ => false

/-- Is the value a Python dict? -/
def PyVal.isDict : PyVal → Bool
  | .dict _ => true
  | _ => false

/-- Is the value a Python str? -/
def PyVal.isStr : PyVal → Bool
  | .str _ => true
  | _ => false

/-- Python `d.get(k)` / `d[k]` on a dict body: first entry with the key. -/
def pyGet (kvs : List (String × PyVal)) (k : String) : Option PyVal :=
  match kvs with
  | [] => Option.none
  | (k', v) :: rest => if k' = k then Option.some v else pyGet rest k

/-- Python `k in d`. -/
def pyHasKey (kvs : List (String × PyVal)) (k : String) : Bool :=
  match kvs with
  | [] => false
  | (k', _) :: rest => if k' = k then true else pyHasKey rest k

/-- Python `d[k] = v`: replace the entry if the key is present, else append
(a new key goes to the end, matching dict insertion order). -/
def pySet (kvs : List (String × PyVal)) (k : String) (v : PyVal) :
    List (String × PyVal) :=
  match kvs with
  | [] => [(k, v)]
  | (k', v') :: rest =>
    if k' = k then (k', v) :: rest else (k', v') :: pySet rest k v

/-- Top-level key set of a dict body (with multiplicity irrelevant). -/
def pyKeys (kvs : List (String × PyVal)) : List String := kvs.map Prod.fst

@[simp] theorem pyGet_nil (k : String) : pyGet [] k = Option.none := rfl

theorem pyGet_pySet_same (kvs : List (String × PyVal)) (k : String) (v : PyVal) :
    pyGet (pySet kvs k v) k = Option.some v := by
  induction kvs with
  | nil => simp [pySet, pyGet]
  | cons hd tl ih =>
    obtain ⟨k', v'⟩ := hd
    by_cases h : k' = k <;> simp [pySet, pyGet, h, ih]

theorem pyGet_pySet_ne (kvs : List (String × PyVal)) (k k' : String) (v : PyVal)
    (h : k ≠ k') : pyGet (pySet kvs k v) k' = pyGet kvs k' := by
  induction kvs with
  | nil => simp [pySet, pyGet, h]
  | cons hd tl ih =>
    obtain ⟨k0, v0⟩ := hd
    by_cases h0 : k0 = k <;> simp [pySet, pyGet, h0, ih]
    · subst h0; simp [h]

theorem pySet_pySet_same (kvs : List (String × PyVal)) (k : String) (v w : PyVal) :
    pySet (pySet kvs k v) k w = pySet kvs k w := by
  induction kvs with
  | nil => simp [pySet]
  | cons hd tl ih =>
    obtain ⟨k0, v0⟩ := hd
    by_cases h0 : k0 = k <;> simp [pySet, h0, ih]

/-- Writing back the value already stored at a key is the identity. -/
theorem pySet_pyGet_same (kvs : List (String × PyVal)) (k : String) (v : PyVal)
    (h : pyGet kvs k = Option.some v) : pySet kvs k v = kvs := by
  induction kvs with
  | nil => simp [pyGet] at h
  | cons hd tl ih =>
    obtain ⟨k0, v0⟩ := hd
    by_cases h0 : k0 = k
    · subst h0
      simp [pyGet] at h
      simp [pySet, h]
    · simp [pyGet, h0] at h
      simp [pySet, h0, ih h]

theorem pyHasKey_pySet (kvs : List (String × PyVal)) (k k' : String) (v : PyVal) :
    pyHasKey (pySet kvs k v) k' = (k = k' || pyHasKey kvs k') := by
  induction kvs with
  | nil => by_cases h : k = k' <;> simp [pySet, pyHasKey, h]
  | cons hd tl ih =>
    obtain ⟨k0, v0⟩ := hd
    by_cases h0 : k0 = k
    · subst h0
      by_cases h1 : k0 = k'
      · subst h1; simp [pySet, pyHasKey]
      · simp [pySet, pyHasKey, h1]
    · by_cases h1 : k0 = k'
      · subst h1
        have hk : ¬k0 = k := h0
        have hk' : ¬k = k0 := fun h => hk (Eq.symm h)
        simp [pySet, pyHasKey, hk, hk']
      · simp [pySet, pyHasKey, h0, h1, ih]

theorem pyHasKey_iff_pyGet (kvs : List (String × PyVal)) (k : String) :
    pyHasKey kvs k = true ↔ (pyGet kvs k).isSome := by
  induction kvs with
  | nil => simp [pyHasKey, pyGet]
  | cons hd tl ih =>
    obtain ⟨k0, v0⟩ := hd
    by_cases h0 : k0 = k <;> simp [pyHasKey, pyGet, h0, ih]

/-! ## Character classes and string helpers

`normalizer.py` uses `re` patterns over `\d`, `\s`, `\w` and literal
characters.  The character classes below model them for the ASCII and
accented-French alphabet the repository works with. -/

/-- The apostrophe character (U+0027), built by code point to keep source
text simple. -/
def apoChar : Char := Char.ofNat 39

/-- Python regex `\s` restricted to the ASCII whitespace this code meets. -/
def isSpaceP (c : Char) : Bool := c.isWhitespace

/-- Python regex `\w` (word character) for ASCII plus the accented letters
appearing in French month and level names. -/
def isWordCharP (c : Char) : Bool :=
  c.isAlphanum || c = '_' ||
    c ∈ ['é', 'è', 'ê', 'ë', 'à', 'â', 'ô', 'î', 'ï', 'û', 'ù', 'ü', 'ç']

/-- Python `str.lower()` (ASCII case fold; accented inputs in this code are
already lowercase). -/
def pyLower (s : String) : String := String.mk (s.data.map Char.toLower)

/-- Python `str.strip()`: drop leading and trailing whitespace (structural,
so concrete evaluations reduce in the kernel). -/
def pyStrip (s : String) : String :=
  String.mk (((s.data.dropWhile isSpaceP).reverse.dropWhile isSpaceP).reverse)

/-- Regex `\\d{2}`: exactly two characters of the class. -/
def take2C (p : Char → Bool) : List Char → Option (List Char × List Char)
  | c1 :: c2 :: r =>
    if p c1 && p c2 then Option.some ([c1, c2], r) else Option.none
  | _ => Option.none

/-- Regex `\\d{4}`: exactly four characters of the class. -/
def take4C (p : Char → Bool) : List Char → Option (List Char × List Char)
  | c1 :: c2 :: c3 :: c4 :: r =>
    if p c1 && p c2 && p c3 && p c4 then Option.some ([c1, c2, c3, c4], r)
    else Option.none
  | _ => Option.none

/-- Maximal run of characters satisfying `p` (possibly empty), with the rest. -/
def takeRun (p : Char → Bool) : List Char → List Char × List Char
  | [] => ([], [])
  | c :: r =>
    if p c then
      let pr := takeRun p r
      (c :: pr.1, pr.2)
    else ([], c :: r)

/-- Regex `c+` for a class: maximal nonempty run.  In every pattern embedded
here the class is disjoint from what may legally follow it, so maximal-munch
matching is exactly equivalent to the backtracking regex. -/
def takeRun1 (p : Char → Bool) (l : List Char) : Option (List Char × List Char) :=
  match l with
  | [] => Option.none
  | c :: r => if p c then Option.some (takeRun p (c :: r)) else Option.none

/-- Regex `\s*`: skip a maximal whitespace run. -/
def skipWs (l : List Char) : List Char := (takeRun isSpaceP l).2

/-- Expect one literal character. -/
def expectChar (c : Char) : List Char → Option (List Char)
  | [] => Option.none
  | c' :: r => if c' = c then Option.some r else Option.none

/-- Regex class `[→-]` used as the range separator in `normalize_date_range`. -/
def expectArrowDash : List Char → Option (List Char)
  | [] => Option.none
  | c :: r => if c = '→' then Option.some r
      else if c = '-' then Option.some r else Option.none

/-- Expect a literal character sequence. -/
def expectLit : List Char → List Char → Option (List Char)
  | [], l => Option.some l
  | _ :: _, [] => Option.none
  | c :: cs, c' :: r => if c' = c then expectLit cs r else Option.none

/-- Python `str.split(sep)` for a one-character separator: split on every
occurrence, keeping empty pieces (so `"".split` gives one empty piece). -/
def splitOnChar (sep : Char) : List Char → List (List Char)
  | [] => [[]]
  | c :: r =>
    let ps := splitOnChar sep r
    if c = sep then [] :: ps
    else
      match ps with
      | p :: rest => (c :: p) :: rest
      | [] => [[c]]

/-- `re.search`: try the pattern at position 0, 1, … and return the first
match (Python returns the leftmost match). -/
def searchAt {α : Type} (patAt : List Char → Option α) : List Char → Option α
  | [] => patAt []
  | c :: rest =>
    match patAt (c :: rest) with
    | Option.some r => Option.some r
    | Option.none => searchAt patAt rest

/-- Digits of a captured group read as a number (`int(match.group(1))`). -/
def charsToNat (l : List Char) : Nat :=
  l.foldl (fun a c => 10 * a + (c.toNat - 48)) 0

/-! ## `normalize_date_range` (normalizer.py lines 43-96) -/

/-- Pattern `(\d{4})-(\d{2})\s*[→-]\s*(\d{4})-(\d{2})` anchored at the head of
the list (`normalizer.py` pattern 1). -/
def pat0At (l : List Char) : Option (List Char × List Char × List Char × List Char) :=
  (take4C Char.isDigit l).bind fun (y1, r1) =>
  (expectChar '-' r1).bind fun r2 =>
  (take2C Char.isDigit r2).bind fun (m1, r3) =>
  (expectArrowDash (skipWs r3)).bind fun r4 =>
  (take4C Char.isDigit (skipWs r4)).bind fun (y2, r5) =>
  (expectChar '-' r5).bind fun r6 =>
  (take2C Char.isDigit r6).map fun (m2, _) => (y1, m1, y2, m2)

/-- Pattern `(\d{2})/(\d{4})\s*[→-]\s*(\d{2})/(\d{4})` anchored at the head
(`normalizer.py` pattern 2). -/
def pat1At (l : List Char) : Option (List Char × List Char × List Char × List Char) :=
  (take2C Char.isDigit l).bind fun (m1, r1) =>
  (expectChar '/' r1).bind fun r2 =>
  (take4C Char.isDigit r2).bind fun (y1, r3) =>
  (expectArrowDash (skipWs r3)).bind fun r4 =>
  (take2C Char.isDigit (skipWs r4)).bind fun (m2, r5) =>
  (expectChar '/' r5).bind fun r6 =>
  (take4C Char.isDigit r6).map fun (y2, _) => (m1, y1, m2, y2)

/-- Pattern `(\w+)\s+(\d{4})\s*[→-]\s*(\w+)\s+(\d{4})` anchored at the head
(`normalizer.py` pattern 3, month-name ranges). -/
def pat2At (l : List Char) : Option (List Char × List Char × List Char × List Char) :=
  (takeRun1 isWordCharP l).bind fun (w1, r1) =>
  (takeRun1 isSpaceP r1).bind fun (_, r2) =>
  (take4C Char.isDigit r2).bind fun (y1, r3) =>
  (expectArrowDash (skipWs r3)).bind fun r4 =>
  (takeRun1 isWordCharP (skipWs r4)).bind fun (w2, r5) =>
  (takeRun1 isSpaceP r5).bind fun (_, r6) =>
  (take4C Char.isDigit r6).map fun (y2, _) => (w1, y1, w2, y2)

/-- Pattern `(\d{4})\s*[→-]\s*(\d{4})` anchored at the head (`normalizer.py`
pattern 4, bare year ranges). -/
def pat3At (l : List Char) : Option (List Char × List Char) :=
  (take4C Char.isDigit l).bind fun (y1, r1) =>
  (expectArrowDash (skipWs r1)).bind fun r2 =>
  (take4C Char.isDigit (skipWs r2)).map fun (y2, _) => (y1, y2)

/-- `parse_month_name` month table (normalizer.py lines 101-114). -/
def month_map : List (String × Nat) :=
  [("janvier", 1), ("january", 1), ("jan", 1),
   ("février", 2), ("fevrier", 2), ("february", 2), ("feb", 2),
   ("mars", 3), ("march", 3), ("mar", 3),
   ("avril", 4), ("april", 4), ("apr", 4),
   ("mai", 5), ("may", 5),
   ("juin", 6), ("june", 6), ("jun", 6),
   ("juillet", 7), ("july", 7), ("jul", 7),
   ("août", 8), ("aout", 8), ("august", 8), ("aug", 8),
   ("septembre", 9), ("september", 9), ("sep", 9), ("sept", 9),
   ("octobre", 10), ("october", 10), ("oct", 10),
   ("novembre", 11), ("november", 11), ("nov", 11),
   ("décembre", 12), ("decembre", 12), ("december", 12), ("dec", 12)]

/-- First-match association lookup, Python `dict.get`. -/
def listLookup {α : Type} (kvs : List (String × α)) (k : String) : Option α :=
  match kvs with
  | [] => Option.none
  | (k', v) :: rest => if k' = k then Option.some v else listLookup rest k

/-- `parse_month_name` (normalizer.py lines 99-116). -/
def parse_month_name (month_str : String) : Option Nat :=
  listLookup month_map (pyStrip (pyLower month_str))

/-- Two-digit month rendering, Python format `:02d` for months 1-12. -/
def fmt2 (n : Nat) : List Char :=
  if n < 10 then '0' :: Nat.toDigits 10 n else Nat.toDigits 10 n

/-- Python `str.zfill(2)` on a digit group. -/
def zfill2 (l : List Char) : List Char :=
  if l.length < 2 then List.replicate (2 - l.length) '0' ++ l else l

/-- The literal `" → "` used in every canonical output. -/
def arrowSep : List Char := [' ', '→', ' ']

/-- Separator match for `re.split` pattern `[→-]|to|jusqu\x27?à`: number of
characters consumed when one of the alternatives matches at the head. -/
def sepLenAt (l : List Char) : Option Nat :=
  match l with
  | [] => Option.none
  | c :: rest =>
    if c = '→' then Option.some 1
    else if c = '-' then Option.some 1
    else if c = 't' then
      match rest with
      | 'o' :: _ => Option.some 2
      | _ => Option.none
    else if c = 'j' then
      match rest with
      | 'u' :: 's' :: 'q' :: 'u' :: r5 =>
        match r5 with
        | c5 :: r6 =>
          if c5 = 'à' then Option.some 6
          else if c5 = apoChar then
            match r6 with
            | c6 :: _ => if c6 = 'à' then Option.some 7 else Option.none
            | [] => Option.none
          else Option.none
        | [] => Option.none
      | _ => Option.none
    else Option.none

/-- `re.split(r"[→-]|to|jusqu\x27?à", s, maxsplit)` with optional maxsplit:
fuel-driven scan collecting parts (fuel is the input length, enough for one
step per character). -/
def resplitAux : Nat → List Char → List Char → Option Nat → List (List Char) →
    List (List Char)
  | 0, cur, l, _, acc => acc ++ [cur ++ l]
  | _ + 1, cur, [], _, acc => acc ++ [cur]
  | fuel + 1, cur, c :: rest, maxs, acc =>
    if maxs = Option.some 0 then acc ++ [cur ++ (c :: rest)]
    else
      match sepLenAt (c :: rest) with
      | Option.some n =>
        resplitAux fuel [] (List.drop n (c :: rest))
          (maxs.map fun m => m - 1) (acc ++ [cur])
      | Option.none => resplitAux fuel (cur ++ [c]) rest maxs acc

/-- `re.split` on the range-separator pattern. -/
def resplit (s : String) (maxs : Option Nat) : List String :=
  (resplitAux (s.data.length + 1) [] s.data maxs []).map String.mk

/-- Modelled from the spec: the external `dateutil.parser.parse` fallback
(§4.5 "parsing a start/end date range").  The library itself is not part of
this repository; this model recognises the two deterministic shapes
`YYYY-MM` and `MM/YYYY` (month 1-12) and gives up on anything else.  No
claim in this development relies on a successful fallback parse. -/
def parse_date_model (s : String) : Option (Nat × Nat) :=
  match s.data with
  | [a, b, c, d, '-', e, f] =>
    if [a, b, c, d, e, f].all Char.isDigit then
      let m := charsToNat [e, f]
      if 1 ≤ m ∧ m ≤ 12 then Option.some (charsToNat [a, b, c, d], m)
      else Option.none
    else Option.none
  | [e, f, '/', a, b, c, d] =>
    if [a, b, c, d, e, f].all Char.isDigit then
      let m := charsToNat [e, f]
      if 1 ≤ m ∧ m ≤ 12 then Option.some (charsToNat [a, b, c, d], m)
      else Option.none
    else Option.none
  | _ => Option.none

/-- The dateutil fallback inside `normalize_date_range` (lines 83-91): split
into at most three parts, and when exactly two, parse both and rebuild the
canonical form; any parse failure falls through to returning the input. -/
def dateRangeFallback (s : String) : Option String :=
  match resplit s (Option.some 2) with
  | [p1, p2] =>
    match parse_date_model (pyStrip p1), parse_date_model (pyStrip p2) with
    | Option.some (y1, m1), Option.some (y2, m2) =>
      Option.some (String.mk
        (Nat.toDigits 10 y1 ++ '-' :: fmt2 m1 ++ arrowSep ++
          Nat.toDigits 10 y2 ++ '-' :: fmt2 m2))
    | _, _ => Option.none
  | _ => Option.none

/-- Month-name pattern step: a first match whose month names both parse gives
the output; an unparseable month name falls through to the next pattern
(the `return` inside the loop is guarded by `if start_month and end_month`). -/
def pat2Result (l : List Char) : Option (List Char) :=
  match searchAt pat2At l with
  | Option.some (w1, y1, w2, y2) =>
    match parse_month_name (String.mk w1), parse_month_name (String.mk w2) with
    | Option.some m1, Option.some m2 =>
      Option.some (y1 ++ '-' :: fmt2 m1 ++ arrowSep ++ y2 ++ '-' :: fmt2 m2)
    | _, _ => Option.none
  | Option.none => Option.none

/-- `normalize_date_range` (normalizer.py lines 43-96): try the four literal
patterns in order, then the dateutil fallback, and return the input verbatim
when nothing applies. -/
def normalize_date_range (s : String) : String :=
  if s.data.isEmpty then "" else
  match searchAt pat0At s.data with
  | Option.some (y1, m1, y2, m2) =>
    String.mk (y1 ++ '-' :: m1 ++ arrowSep ++ y2 ++ '-' :: m2)
  | Option.none =>
  match searchAt pat1At s.data with
  | Option.some (m1, y1, m2, y2) =>
    String.mk (y1 ++ '-' :: zfill2 m1 ++ arrowSep ++ y2 ++ '-' :: zfill2 m2)
  | Option.none =>
  match pat2Result s.data with
  | Option.some o => String.mk o
  | Option.none =>
  match searchAt pat3At s.data with
  | Option.some (y1, y2) =>
    String.mk (y1 ++ '-' :: '0' :: '1' :: arrowSep ++ y2 ++ '-' :: '1' :: '2' :: [])
  | Option.none =>
  match dateRangeFallback s with
  | Option.some o => o
  | Option.none => s

/-! ## `normalize_language_level` (normalizer.py lines 119-161) -/

/-- The four canonical language levels of the code. -/
def canonicalLevels : List String := ["debutant", "intermediaire", "courant", "bilingue"]

/-- The synonym/CEFR table (normalizer.py lines 136-159). -/
def language_level_map : List (String × String) :=
  [("débutant", "debutant"), ("beginner", "debutant"), ("basic", "debutant"),
   ("a1", "debutant"), ("a2", "debutant"),
   ("intermédiaire", "intermediaire"), ("intermediate", "intermediaire"),
   ("b1", "intermediaire"), ("b2", "intermediaire"),
   ("avancé", "courant"), ("avance", "courant"), ("advanced", "courant"),
   ("fluent", "courant"), ("c1", "courant"),
   ("natif", "bilingue"), ("native", "bilingue"), ("mothertounge", "bilingue"),
   ("langue maternelle", "bilingue"), ("c2", "bilingue")]

/-- `normalize_language_level`: canonical labels pass through, the synonym
table maps known spellings, anything else defaults to `intermediaire`. -/
def normalize_language_level (level : String) : String :=
  let level_lower := pyStrip (pyLower level)
  if level_lower ∈ canonicalLevels then level_lower
  else
    match listLookup language_level_map level_lower with
    | Option.some v => v
    | Option.none => "intermediaire"

/-! ## Duration parsing and years-of-experience (normalizer.py lines 164-256) -/

/-- Regex `(\d+)\s*LIT` anchored at the head: a nonempty digit run, optional
whitespace, then the literal core of the pattern (the optional trailing `s`
of `an[s]?` etc. never affects the match or the captured group). -/
def numLitAt (core : List Char) (l : List Char) : Option Nat :=
  (takeRun1 Char.isDigit l).bind fun (ds, r) =>
  (expectLit core (skipWs r)).map fun _ => charsToNat ds

/-- `re.search` for a `(\d+)\s*LIT` duration pattern. -/
def searchNumLit (core : List Char) (l : List Char) : Option Nat :=
  searchAt (numLitAt core) l

/-- Substring test, Python `needle in hay`. -/
def containsSub (needle hay : List Char) : Bool :=
  (searchAt (expectLit needle) hay).isSome

/-- The "still running" words of `estimate_months_from_dates`
(normalizer.py line 239). -/
def presentWords : List String :=
  ["present", "current", "actuel",
   String.mk ('a' :: 'u' :: 'j' :: 'o' :: 'u' :: 'r' :: 'd' :: apoChar :: 'h' :: 'u' :: 'i' :: [])]

/-- `estimate_months_from_dates` (normalizer.py lines 229-256).  `now` stands
for `datetime.now()` as a (year, month) pair; date parsing delegates to the
`parse_date_model` of the external dateutil library. -/
def estimate_months_from_dates (now : Nat × Nat) (text : String) : Nat :=
  match resplit text Option.none with
  | [p1, p2] =>
    let start_str := pyStrip p1
    let end_str := pyStrip p2
    let endDate : Option (Nat × Nat) :=
      if presentWords.any (fun w => containsSub w.data (pyLower end_str).data) then
        Option.some now
      else parse_date_model end_str
    match endDate with
    | Option.none => 0
    | Option.some (ey, em) =>
      match parse_date_model start_str with
      | Option.none => 0
      | Option.some (sy, sm) =>
        let months : Int := ((ey : Int) - (sy : Int)) * 12 + ((em : Int) - (sm : Int))
        (max 0 months).toNat
  | _ => 0

/-- The literal cores of the year patterns `an[s]?`, `year[s]?`, `yr[s]?`. -/
def yearCores : List (List Char) := [['a', 'n'], ['y', 'e', 'a', 'r'], ['y', 'r']]

/-- The literal cores of the month patterns `mois`, `month[s]?`, `mo[s]?`. -/
def monthCores : List (List Char) :=
  [['m', 'o', 'i', 's'], ['m', 'o', 'n', 't', 'h'], ['m', 'o']]

/-- `extract_duration_months` (normalizer.py lines 190-226): every matching
year pattern adds `12 * n` months and every matching month pattern adds `n`
months (the patterns overlap, so one duration text can be counted by several
patterns); a text with no explicit duration falls back to date-range
estimation. -/
def extract_duration_months (now : Nat × Nat) (duration_text : String) : Nat :=
  if duration_text.data.isEmpty then 0
  else
    let text := (pyLower duration_text).data
    let fromYears := yearCores.foldl
      (fun acc core =>
        acc + match searchNumLit core text with
              | Option.some n => n * 12
              | Option.none => 0) 0
    let months := monthCores.foldl
      (fun acc core =>
        acc + match searchNumLit core text with
              | Option.some n => n
              | Option.none => 0) fromYears
    if months = 0 then estimate_months_from_dates now duration_text else months

/-- Python `round(total_months / 12)` on a nonnegative integer total: exact
rational rounding half-to-even (the quotient has fractional part `6/12 = 0.5`
exactly at remainder 6, below it otherwise, so the float never misrounds). -/
def pyRoundDiv12 (total : Nat) : Nat :=
  let q := total / 12
  let r := total % 12
  if r < 6 then q
  else if 6 < r then q + 1
  else if q % 2 = 0 then q else q + 1

/-- An entry carrying the `duration_text` attribute read by
`calculate_years_experience` (the stale `Extracted` experience shape). -/
structure DurationEntry where
  duration_text : String
  deriving Repr

/-- `calculate_years_experience` (normalizer.py lines 164-187): sum the
parsed months of every entry, convert to years with Python `round`, floor
at 0. -/
def calculate_years_experience (now : Nat × Nat) (experiences : List DurationEntry) : Nat :=
  let total := experiences.foldl
    (fun acc e => acc + extract_duration_months now e.duration_text) 0
  max 0 (pyRoundDiv12 total)

/-! ## Skill cleanup (normalizer.py lines 259-306) -/

/-- Python truthiness of a value (`if not skill`). -/
def pyFalsy : PyVal → Bool
  | .none => true
  | .str s => s = ""
  | .int n => n = 0
  | .bool b => !b
  | .list xs => xs.isEmpty
  | .dict kvs => kvs.isEmpty

/-- Python iteration `for x in v`: lists yield their items, strings their
characters (as 1-character strings), dicts their keys; other values raise
`TypeError`. -/
def pyIterate : PyVal → Except String (List PyVal)
  | .list xs => Except.ok xs
  | .str s => Except.ok (s.data.map fun c => PyVal.str (String.mk [c]))
  | .dict kvs => Except.ok (kvs.map fun kv => PyVal.str kv.1)
  | _ => Except.error "TypeError: object is not iterable"

/-- Python `str.title()`: a letter starting a run of letters is uppercased,
letters inside a run are lowercased, other characters pass through. -/
def pyTitleAux : Bool → List Char → List Char
  | _, [] => []
  | prevAlpha, c :: r =>
    if c.isAlpha then
      (if prevAlpha then c.toLower else c.toUpper) :: pyTitleAux true r
    else c :: pyTitleAux false r

/-- Python `str.title()`. -/
def pyTitle (s : String) : String := String.mk (pyTitleAux false s.data)

/-- The loop body of `clean_skill_list` (normalizer.py lines 291-304): skip
falsy or blank entries, strip+title the rest, deduplicate case-insensitively
keeping first occurrences; a truthy non-string entry raises
(`skill.strip()` on it has no attribute).  Python's two guards
`if not skill or not skill.strip(): continue` are compiled per value shape:
a string is skipped exactly when its strip is empty (which subsumes the
falsy empty string), and a non-string is skipped when falsy and raises on
`.strip()` when truthy. -/
def cleanSkillAux : List PyVal → List String → List String → Except String (List String)
  | [], acc, _ => Except.ok acc.reverse
  | PyVal.none :: rest, acc, seen => cleanSkillAux rest acc seen
  | PyVal.str s :: rest, acc, seen =>
    if pyStrip s = "" then cleanSkillAux rest acc seen
    else
      let clean := pyTitle (pyStrip s)
      let key := pyLower clean
      if key ∈ seen then cleanSkillAux rest acc seen
      else cleanSkillAux rest (clean :: acc) (key :: seen)
  | PyVal.int n :: rest, acc, seen =>
    if n = 0 then cleanSkillAux rest acc seen
    else Except.error "AttributeError: object has no attribute strip"
  | PyVal.bool b :: rest, acc, seen =>
    if b then Except.error "AttributeError: object has no attribute strip"
    else cleanSkillAux rest acc seen
  | PyVal.list xs :: rest, acc, seen =>
    if xs.isEmpty then cleanSkillAux rest acc seen
    else Except.error "AttributeError: object has no attribute strip"
  | PyVal.dict kvs :: rest, acc, seen =>
    if kvs.isEmpty then cleanSkillAux rest acc seen
    else Except.error "AttributeError: object has no attribute strip"

/-- `clean_skill_list` (normalizer.py lines 286-306) on a dynamic value: the
`if not skills: return []` guard, then the cleanup loop over its items. -/
def clean_skill_list (v : PyVal) : Except String (List String) :=
  if pyFalsy v then Except.ok []
  else (pyIterate v).bind fun items => cleanSkillAux items [] []

/-- The `skills.technical` object as `normalize_skills` uses it: one dynamic
attribute per category name of the code's own loop (normalizer.py lines
270-272).  Modelled from the spec: the stale `Extracted` skills schema is
absent from `schemas.py`; per §3 each category starts as a list of skill
strings, and the dynamic typing records what the function stores back. -/
structure TechSkillsDyn where
  language_framework : PyVal
  ci_cd : PyVal
  state_management : PyVal
  tests : PyVal
  tools : PyVal
  databases_big_data : PyVal
  analytics_visualization : PyVal
  collaboration : PyVal
  ux_ui : PyVal
  deriving Repr

/-- The `skills` object of `normalize_skills`: technical categories plus the
`functional` and `management` lists. -/
structure SkillsDyn where
  technical : TechSkillsDyn
  functional : PyVal
  management : PyVal
  deriving Repr

/-- One technical category step of `normalize_skills`: clean the list and
join it into a comma-separated string (the code's "frontend compatibility"
conversion). -/
def normTechCategory (v : PyVal) : Except String PyVal :=
  (clean_skill_list v).map fun cleaned => PyVal.str (String.intercalate ", " cleaned)

/-- `normalize_skills` (normalizer.py lines 259-283): every one of the 9
technical categories is cleaned and then replaced by a comma-separated
string; `functional` and `management` are cleaned and kept as lists. -/
def normalize_skills (s : SkillsDyn) : Except String SkillsDyn := do
  let lf ← normTechCategory s.technical.language_framework
  let ci ← normTechCategory s.technical.ci_cd
  let sm ← normTechCategory s.technical.state_management
  let ts ← normTechCategory s.technical.tests
  let tl ← normTechCategory s.technical.tools
  let db ← normTechCategory s.technical.databases_big_data
  let av ← normTechCategory s.technical.analytics_visualization
  let co ← normTechCategory s.technical.collaboration
  let ux ← normTechCategory s.technical.ux_ui
  let fn ← clean_skill_list s.functional
  let mg ← clean_skill_list s.management
  Except.ok
    { technical :=
        { language_framework := lf, ci_cd := ci, state_management := sm,
          tests := ts, tools := tl, databases_big_data := db,
          analytics_visualization := av, collaboration := co, ux_ui := ux },
      functional := PyVal.list (fn.map PyVal.str),
      management := PyVal.list (mg.map PyVal.str) }

/-! ## The Dossier data model (schemas.py) -/

/-- `Entete` (schemas.py lines 7-12). -/
structure Entete where
  intitule_poste : String := ""
  annees_experience : String := ""
  prenom : String := ""
  nom : String := ""
  resume_profil : String := ""
  deriving Repr, DecidableEq

/-- `ExperienceCleRecente` (schemas.py lines 16-21). -/
structure ExperienceCleRecente where
  client : String := ""
  intitule_poste : String := ""
  duree : String := ""
  description_breve : String := ""
  responsabilites : List String := []
  deriving Repr, DecidableEq

/-- `Diplome` (schemas.py lines 25-28). -/
structure Diplome where
  intitule : String := ""
  etablissement : String := ""
  annee : String := ""
  deriving Repr, DecidableEq

/-- `Certification` (schemas.py lines 32-35). -/
structure Certification where
  intitule : String := ""
  organisme : String := ""
  annee : String := ""
  deriving Repr, DecidableEq

/-- `Langue` (schemas.py lines 39-41). -/
structure Langue where
  langue : String := ""
  niveau : String := ""
  deriving Repr, DecidableEq

/-- `CompetencesTechniques` (schemas.py lines 45-54): the 9 fixed technical
skill categories of the wire schema. -/
structure CompetencesTechniques where
  language_framework : List String := []
  ci_cd : List String := []
  state_management : List String := []
  tests : List String := []
  outils : List String := []
  base_de_donnees_big_data : List String := []
  data_analytics_visualisation : List String := []
  collaboration : List String := []
  ux_ui : List String := []
  deriving Repr, DecidableEq

/-- `CompetencesFonctionnelles` (schemas.py lines 58-64). -/
structure CompetencesFonctionnelles where
  gestion_de_projet : List String := []
  revue_de_code : Bool := false
  peer_programming : Bool := false
  qualite_des_livrables : Bool := false
  methodologie_scrum : List String := []
  encadrement : String := ""
  deriving Repr, DecidableEq

/-- `ExperienceProfessionnelle` (schemas.py lines 68-76). -/
structure ExperienceProfessionnelle where
  client : String := ""
  intitule_poste : String := ""
  date_debut : String := ""
  date_fin : String := ""
  contexte : String := ""
  responsabilites : List String := []
  livrables : List String := []
  environnement_technique : CompetencesTechniques := {}
  deriving Repr, DecidableEq

/-- `DossierCompetences` (schemas.py lines 80-88): `entete`,
`competences_techniques` and `competences_fonctionnelles` are required, the
list fields default to empty. -/
structure DossierCompetences where
  entete : Entete
  experiences_cles_recentes : List ExperienceCleRecente := []
  diplomes : List Diplome := []
  certifications : List Certification := []
  langues : List Langue := []
  competences_techniques : CompetencesTechniques
  competences_fonctionnelles : CompetencesFonctionnelles
  experiences_professionnelles : List ExperienceProfessionnelle := []
  deriving Repr, DecidableEq

/-! ## Pydantic-style validation of an extraction payload

`DossierCompetences(**extracted_dict)` type-checks a decoded JSON value
against the model above.  Lenient pydantic v1 coercions that no claim
exercises (numeric strings to int, etc.) are modelled only where cheap:
`str` fields accept int/bool via `str()`, `bool` fields accept 0/1 and the
usual truth words. -/

/-- A value for a pydantic `str` field. -/
def parsePyStr : PyVal → Except String String
  | .str s => Except.ok s
  | .int n => Except.ok (toString n)
  | .bool b => Except.ok (if b then "True" else "False")
  | _ => Except.error "str type expected"

/-- A value for a pydantic `bool` field. -/
def parsePyBool : PyVal → Except String Bool
  | .bool b => Except.ok b
  | .int n =>
    if n = 0 then Except.ok false
    else if n = 1 then Except.ok true
    else Except.error "value could not be parsed to a boolean"
  | .str s =>
    let t := pyLower s
    if t ∈ ["1", "on", "t", "true", "y", "yes"] then Except.ok true
    else if t ∈ ["0", "off", "f", "false", "n", "no"] then Except.ok false
    else Except.error "value could not be parsed to a boolean"
  | _ => Except.error "value could not be parsed to a boolean"

/-- Validate every element of a list, failing on the first invalid one. -/
def exceptMapM {α β : Type} (f : α → Except String β) : List α → Except String (List β)
  | [] => Except.ok []
  | x :: rest => (f x).bind fun y => (exceptMapM f rest).map fun ys => y :: ys

/-- A `str = ""` field of a submodel: absent means the default. -/
def parseStrField (kvs : List (String × PyVal)) (k : String) : Except String String :=
  match pyGet kvs k with
  | Option.none => Except.ok ""
  | Option.some v => parsePyStr v

/-- A `bool = False` field of a submodel. -/
def parseBoolField (kvs : List (String × PyVal)) (k : String) : Except String Bool :=
  match pyGet kvs k with
  | Option.none => Except.ok false
  | Option.some v => parsePyBool v

/-- A `List[str] = []` field of a submodel. -/
def parseListStrField (kvs : List (String × PyVal)) (k : String) :
    Except String (List String) :=
  match pyGet kvs k with
  | Option.none => Except.ok []
  | Option.some (.list xs) => exceptMapM parsePyStr xs
  | Option.some _ => Except.error "value is not a valid list"

/-- A `List[Model] = []` field. -/
def parseListOf {α : Type} (f : PyVal → Except String α)
    (kvs : List (String × PyVal)) (k : String) : Except String (List α) :=
  match pyGet kvs k with
  | Option.none => Except.ok []
  | Option.some (.list xs) => exceptMapM f xs
  | Option.some _ => Except.error "value is not a valid list"

/-- Validate an `Entete` value. -/
def parseEntete : PyVal → Except String Entete
  | .dict kvs => do
    let a ← parseStrField kvs "intitule_poste"
    let b ← parseStrField kvs "annees_experience"
    let c ← parseStrField kvs "prenom"
    let d ← parseStrField kvs "nom"
    let e ← parseStrField kvs "resume_profil"
    Except.ok ⟨a, b, c, d, e⟩
  | _ => Except.error "value is not a valid dict"

/-- Validate an `ExperienceCleRecente` value. -/
def parseExpCle : PyVal → Except String ExperienceCleRecente
  | .dict kvs => do
    let a ← parseStrField kvs "client"
    let b ← parseStrField kvs "intitule_poste"
    let c ← parseStrField kvs "duree"
    let d ← parseStrField kvs "description_breve"
    let e ← parseListStrField kvs "responsabilites"
    Except.ok ⟨a, b, c, d, e⟩
  | _ => Except.error "value is not a valid dict"

/-- Validate a `Diplome` value. -/
def parseDiplome : PyVal → Except String Diplome
  | .dict kvs => do
    let a ← parseStrField kvs "intitule"
    let b ← parseStrField kvs "etablissement"
    let c ← parseStrField kvs "annee"
    Except.ok ⟨a, b, c⟩
  | _ => Except.error "value is not a valid dict"

/-- Validate a `Certification` value. -/
def parseCertification : PyVal → Except String Certification
  | .dict kvs => do
    let a ← parseStrField kvs "intitule"
    let b ← parseStrField kvs "organisme"
    let c ← parseStrField kvs "annee"
    Except.ok ⟨a, b, c⟩
  | _ => Except.error "value is not a valid dict"

/-- Validate a `Langue` value. -/
def parseLangue : PyVal → Except String Langue
  | .dict kvs => do
    let a ← parseStrField kvs "langue"
    let b ← parseStrField kvs "niveau"
    Except.ok ⟨a, b⟩
  | _ => Except.error "value is not a valid dict"

/-- Validate a `CompetencesTechniques` value. -/
def parseCompTech : PyVal → Except String CompetencesTechniques
  | .dict kvs => do
    let a ← parseListStrField kvs "language_framework"
    let b ← parseListStrField kvs "ci_cd"
    let c ← parseListStrField kvs "state_management"
    let d ← parseListStrField kvs "tests"
    let e ← parseListStrField kvs "outils"
    let f ← parseListStrField kvs "base_de_donnees_big_data"
    let g ← parseListStrField kvs "data_analytics_visualisation"
    let h ← parseListStrField kvs "collaboration"
    let i ← parseListStrField kvs "ux_ui"
    Except.ok ⟨a, b, c, d, e, f, g, h, i⟩
  | _ => Except.error "value is not a valid dict"

/-- Validate a `CompetencesFonctionnelles` value. -/
def parseCompFonc : PyVal → Except String CompetencesFonctionnelles
  | .dict kvs => do
    let a ← parseListStrField kvs "gestion_de_projet"
    let b ← parseBoolField kvs "revue_de_code"
    let c ← parseBoolField kvs "peer_programming"
    let d ← parseBoolField kvs "qualite_des_livrables"
    let e ← parseListStrField kvs "methodologie_scrum"
    let f ← parseStrField kvs "encadrement"
    Except.ok ⟨a, b, c, d, e, f⟩
  | _ => Except.error "value is not a valid dict"

/-- Validate an `ExperienceProfessionnelle` value (the nested technical
environment defaults to the empty record when absent). -/
def parseExpPro : PyVal → Except String ExperienceProfessionnelle
  | .dict kvs => do
    let a ← parseStrField kvs "client"
    let b ← parseStrField kvs "intitule_poste"
    let c ← parseStrField kvs "date_debut"
    let d ← parseStrField kvs "date_fin"
    let e ← parseStrField kvs "contexte"
    let f ← parseListStrField kvs "responsabilites"
    let g ← parseListStrField kvs "livrables"
    let h ← match pyGet kvs "environnement_technique" with
      | Option.none => Except.ok ({} : CompetencesTechniques)
      | Option.some v => parseCompTech v
    Except.ok ⟨a, b, c, d, e, f, g, h⟩
  | _ => Except.error "value is not a valid dict"

/-- `DossierCompetences(**extracted_dict)`: pydantic validation of the whole
payload; `entete`, `competences_techniques` and `competences_fonctionnelles`
are required fields. -/
def parseDossier : PyVal → Except String DossierCompetences
  | .dict kvs => do
    let ent ← match pyGet kvs "entete" with
      | Option.none => Except.error "entete: field required"
      | Option.some v => parseEntete v
    let ecr ← parseListOf parseExpCle kvs "experiences_cles_recentes"
    let dip ← parseListOf parseDiplome kvs "diplomes"
    let cert ← parseListOf parseCertification kvs "certifications"
    let lg ← parseListOf parseLangue kvs "langues"
    let ct ← match pyGet kvs "competences_techniques" with
      | Option.none => Except.error "competences_techniques: field required"
      | Option.some v => parseCompTech v
    let cf ← match pyGet kvs "competences_fonctionnelles" with
      | Option.none => Except.error "competences_fonctionnelles: field required"
      | Option.some v => parseCompFonc v
    let ep ← parseListOf parseExpPro kvs "experiences_professionnelles"
    Except.ok ⟨ent, ecr, dip, cert, lg, ct, cf, ep⟩
  | _ => Except.error "value is not a valid dict"

/-! ## `normalize_extracted_data` against the actual Dossier model

`normalizer.py` begins with `from ..schemas import Extracted, Language`, but
`schemas.py` defines no such classes, and `normalize_extracted_data`
immediately iterates `data.projects` (line 23) — an attribute the actual
Dossier model `DossierCompetences` does not declare.  Pydantic models raise
`AttributeError` for undeclared attributes. -/

/-- The class names `schemas.py` actually defines. -/
def schemasClassNames : List String :=
  ["Entete", "ExperienceCleRecente", "Diplome", "Certification", "Langue",
   "CompetencesTechniques", "CompetencesFonctionnelles",
   "ExperienceProfessionnelle", "DossierCompetences", "CVTextRequest",
   "ErrorResponse", "User", "UserSession", "AuthResponse"]

/-- The names `normalizer.py` imports from `schemas`. -/
def normalizerImportedNames : List String := ["Extracted", "Language"]

/-- The declared fields of `DossierCompetences` (schemas.py lines 80-88). -/
def dossierCompetencesFields : List String :=
  ["entete", "experiences_cles_recentes", "diplomes", "certifications",
   "langues", "competences_techniques", "competences_fonctionnelles",
   "experiences_professionnelles"]

/-- Pydantic attribute access: reading an undeclared field raises
`AttributeError`. -/
def pydanticGetattr (fields : List String) (attr : String) : Except String Unit :=
  if attr ∈ fields then Except.ok ()
  else Except.error ("AttributeError: no attribute " ++ attr)

/-- `normalize_extracted_data` (normalizer.py lines 10-40) applied to the
repository's actual Dossier model: the first statement of its body reads
`data.projects`, which `DossierCompetences` does not declare, so the access
raises before any normalization work; the remainder of the function (which
also reads `data.languages`, `data.candidate`, `data.experiences_key`,
`data.skills`) is unreachable on this model. -/
def normalize_extracted_data (data : DossierCompetences) :
    Except String DossierCompetences :=
  (pydanticGetattr dossierCompetencesFields "projects").bind fun _ =>
    Except.ok data

/-! ## The mechanical repair pass (async_extract.py lines 112-146) -/

/-- Is the value Python `None`? -/
def PyVal.isNone : PyVal → Bool
  | .none => true
  | _ => false

/-- Python `repr` for the values handled here (string escaping beyond the
surrounding quotes is not modelled; no claim inspects the rendered text). -/
def pyRepr : PyVal → String
  | .none => "None"
  | .str s => String.mk (apoChar :: s.data ++ [apoChar])
  | .int n => toString n
  | .bool b => if b then "True" else "False"
  | .list xs => "[" ++ String.intercalate ", " (xs.attach.map fun x => pyRepr x.1) ++ "]"
  | .dict kvs =>
    "\x7b" ++
      String.intercalate ", "
        (kvs.attach.map fun kv =>
          String.mk (apoChar :: kv.1.1.data ++ [apoChar]) ++ ": " ++ pyRepr kv.1.2) ++
      "\x7d"
decreasing_by
  · have h := List.sizeOf_lt_of_mem x.2
    simp only [PyVal.list.sizeOf_spec]
    omega
  · have h := List.sizeOf_lt_of_mem kv.2
    have h2 : sizeOf kv.1.2 < sizeOf kv.1 := by
      obtain ⟨⟨a, b⟩, _⟩ := kv
      simp
    simp only [PyVal.dict.sizeOf_spec]
    omega

/-- Python `str` of a value (`str(x)` inside the join of
`coerce_list_to_string`). -/
def pyStr : PyVal → String
  | .none => "None"
  | .str s => s
  | .int n => toString n
  | .bool b => if b then "True" else "False"
  | v => pyRepr v

/-- `coerce_list_to_string` (async_extract.py lines 112-118): a list is
joined into one comma-separated string, skipping `None` items; anything else
passes through unchanged. -/
def coerce_list_to_string (v : PyVal) : PyVal :=
  match v with
  | .list xs => .str (String.intercalate ", " ((xs.filter fun x => !x.isNone).map pyStr))
  | _ => v

/-- Key of the key-experiences list. -/
def expKey : String := "experiences_cles_recentes"

/-- Key of the functional-skills record. -/
def cfKey : String := "competences_fonctionnelles"

/-- The header fields coerced by the repair pass (async_extract.py line 129). -/
def reparableHeaderKeys : List String :=
  ["intitule_poste", "annees_experience", "prenom", "nom", "resume_profil"]

/-- The loop `for k in [...]: if k in ent: ent[k] = coerce_list_to_string(ent.get(k))`. -/
def coerceKeys : List String → List (String × PyVal) → List (String × PyVal)
  | [], e => e
  | k :: ks, e =>
    coerceKeys ks
      (if pyHasKey e k then
        pySet e k (coerce_list_to_string ((pyGet e k).getD PyVal.none))
      else e)

/-- Repair stage 1 (async_extract.py lines 121-124): coerce
`competences_fonctionnelles.encadrement` lists into a comma-separated
string. -/
def repairStage1 (d : List (String × PyVal)) : List (String × PyVal) :=
  match pyGet d cfKey with
  | Option.some (.dict cf) =>
    if pyHasKey cf "encadrement" then
      pySet d cfKey
        (.dict (pySet cf "encadrement"
          (coerce_list_to_string ((pyGet cf "encadrement").getD PyVal.none))))
    else d
  | _ => d

/-- Repair stage 2 (async_extract.py lines 126-131): coerce the header
fields that should be strings. -/
def repairStage2 (d : List (String × PyVal)) : List (String × PyVal) :=
  match pyGet d "entete" with
  | Option.some (.dict ent) => pySet d "entete" (.dict (coerceKeys reparableHeaderKeys ent))
  | _ => d

/-- Repair stage 3a (async_extract.py lines 133-138): a missing or `None`
experiences list becomes `[]`, a lone experience dict is wrapped into a
one-element list. -/
def repairStage3a (d : List (String × PyVal)) : List (String × PyVal) :=
  match pyGet d expKey with
  | Option.none => pySet d expKey (.list [])
  | Option.some PyVal.none => pySet d expKey (.list [])
  | Option.some (.dict ex) => pySet d expKey (.list [.dict ex])
  | Option.some _ => d

/-- One element of the experiences loop (async_extract.py lines 141-145): a
string-valued `responsabilites` is split into its non-blank stripped lines. -/
def fixResponsabilites (x : PyVal) : PyVal :=
  match x with
  | .dict ex =>
    match pyGet ex "responsabilites" with
    | Option.some (.str s) =>
      .dict (pySet ex "responsabilites"
        (.list ((((splitOnChar '\n' s.data).map fun l => pyStrip (String.mk l)).filter
          fun t => t ≠ "").map PyVal.str)))
    | _ => .dict ex
  | _ => x

/-- Repair stage 3 (async_extract.py lines 133-145): the fixups of stage 3a
followed by the in-place loop over the experiences value; iterating a
non-iterable experiences value raises. -/
def repairStage3 (d : List (String × PyVal)) : Except String (List (String × PyVal)) :=
  let d1 := repairStage3a d
  match pyGet d1 expKey with
  | Option.some (.list xs) => Except.ok (pySet d1 expKey (.list (xs.map fixResponsabilites)))
  | Option.some (.str _) => Except.ok d1
  | Option.some (.dict _) => Except.ok d1
  | Option.some _ => Except.error "TypeError: object is not iterable"
  | Option.none => Except.ok d1

/-- The whole mechanical repair pass of `extract_structured_async`
(async_extract.py lines 120-146), as a function of the decoded payload; a
non-dict payload has no `.get` and raises. -/
def repairPass (v : PyVal) : Except String PyVal :=
  match v with
  | .dict d => (repairStage3 (repairStage2 (repairStage1 d))).map PyVal.dict
  | _ => Except.error "AttributeError: object has no attribute get"

/-! ## Retry model, extraction entry points, comparison engine

The external completion service is an oracle `client : Nat → Except String
PyVal` giving the decoded reply of attempt 0, 1, 2, …; an `Except.error`
covers both an API failure and an unparseable reply.  Functions touching the
service return the number of calls made alongside the result. -/

/-- `tenacity.retry(stop=stop_after_attempt(3), reraise=True)` around one
call (llm_extract.py lines 202-206): sequential attempts, at most 3, the
last error resurfacing unchanged. -/
def retry3 {α : Type} (f : Nat → Except String α) : Except String α × Nat :=
  match f 0 with
  | .ok a => (.ok a, 1)
  | .error _ =>
    match f 1 with
    | .ok a => (.ok a, 2)
    | .error _ => (f 2, 3)

/-- `call_openai_extraction` (llm_extract.py lines 202-253): the
retry-decorated completion call. -/
def call_openai_extraction (client : Nat → Except String PyVal) :
    Except String PyVal × Nat :=
  retry3 client

/-- `extract_structured` (llm_extract.py lines 256-302), the synchronous
path: length gate, retried completion call, strict validation with no
repair. -/
def extract_structured (client : Nat → Except String PyVal) (cv_text : String) :
    Except String DossierCompetences × Nat :=
  if cv_text = "" then
    (.error "Extraction failed: Either cv_text or cv_file must be provided", 0)
  else if (pyStrip cv_text).length < 50 then
    (.error "CV text too short or empty", 0)
  else
    match call_openai_extraction client with
    | (.error e, n) => (.error ("OpenAI extraction failed: " ++ e), n)
    | (.ok reply, n) =>
      match parseDossier reply with
      | .ok d => (.ok d, n)
      | .error e => (.error ("Data validation failed: " ++ e), n)

/-- `extract_structured_async` (async_extract.py lines 68-165): length gate,
one unretried completion call (the async client has no tenacity decorator),
validation, then the mechanical repair pass and a single re-validation. -/
def extract_structured_async (client : Nat → Except String PyVal) (cv_text : String) :
    Except String DossierCompetences × Nat :=
  if cv_text = "" then
    (.error "Extraction failed: Either cv_text or cv_file must be provided", 0)
  else if (pyStrip cv_text).length < 50 then
    (.error "CV text too short or empty", 0)
  else
    match client 0 with
    | .error e => (.error ("OpenAI extraction failed: " ++ e), 1)
    | .ok reply =>
      match parseDossier reply with
      | .ok d => (.ok d, 1)
      | .error _ =>
        match repairPass reply with
        | .error ne =>
          (.error ("Data validation failed and normalization attempt errored: " ++ ne), 1)
        | .ok repaired =>
          match parseDossier repaired with
          | .ok d => (.ok d, 1)
          | .error e2 => (.error ("Data validation failed after normalization: " ++ e2), 1)

/-! ## Comparison engine (compare_async.py) -/

/-- One ranked entry of the comparison reply (the `CompareResultItem`
pydantic model, compare_async.py lines 85-92). -/
structure CompareResultItem where
  filename : String
  score : Int
  strengths : List String := []
  weaknesses : List String := []
  summary : Option String := Option.none
  matched_skills : List String := []
  reasoning : Option String := Option.none
  deriving Repr, DecidableEq

/-- The `CompareResults` pydantic model (compare_async.py lines 94-95). -/
structure CompareResults where
  results : List CompareResultItem
  deriving Repr, DecidableEq

/-- An `Optional[str] = None` field. -/
def parseOptStrField (kvs : List (String × PyVal)) (k : String) :
    Except String (Option String) :=
  match pyGet kvs k with
  | Option.none => Except.ok Option.none
  | Option.some PyVal.none => Except.ok Option.none
  | Option.some v => (parsePyStr v).map Option.some

/-- The required `filename: str` field. -/
def parseReqStr (kvs : List (String × PyVal)) (k : String) : Except String String :=
  match pyGet kvs k with
  | Option.none => Except.error (k ++ ": field required")
  | Option.some v => parsePyStr v

/-- The required `score: int = Field(..., ge=0, le=100)` value before its
range check. -/
def parseScoreField (kvs : List (String × PyVal)) : Except String Int :=
  match pyGet kvs "score" with
  | Option.none => Except.error "score: field required"
  | Option.some (.int n) => Except.ok n
  | Option.some (.bool b) => Except.ok (if b then (1 : Int) else 0)
  | Option.some _ => Except.error "score: value is not a valid integer"

/-- Validate one `CompareResultItem`: `filename` and `score` are required,
`score` carries the `ge=0, le=100` constraint, the lists default to empty. -/
def parseCompareItem : PyVal → Except String CompareResultItem
  | .dict kvs =>
    parseReqStr kvs "filename" >>= fun fn =>
    parseScoreField kvs >>= fun sc =>
    if sc < 0 then Except.error "score: ensure this value is greater than or equal to 0"
    else if 100 < sc then Except.error "score: ensure this value is less than or equal to 100"
    else
      parseListStrField kvs "strengths" >>= fun st =>
      parseListStrField kvs "weaknesses" >>= fun wk =>
      parseOptStrField kvs "summary" >>= fun sm =>
      parseListStrField kvs "matched_skills" >>= fun ms =>
      parseOptStrField kvs "reasoning" >>= fun rs =>
      Except.ok ⟨fn, sc, st, wk, sm, ms, rs⟩
  | _ => Except.error "value is not a valid dict"

/-- `CompareResults.parse_obj(parsed)` (compare_async.py line 99): the reply
must be a dict whose required `results` key holds a list of valid items.  No
constraint relates the number of items to the number of submitted CVs, and
no bound constrains the strengths/weaknesses list lengths. -/
def parseCompareResults : PyVal → Except String CompareResults
  | .dict kvs =>
    match pyGet kvs "results" with
    | Option.none => Except.error "results: field required"
    | Option.some (.list xs) => (exceptMapM parseCompareItem xs).map CompareResults.mk
    | Option.some _ => Except.error "results: value is not a valid list"
  | _ => Except.error "value is not a valid dict"

/-- The compact per-CV payload built for the prompt (compare_async.py lines
28-34): `_filename` or `filename` or `"unknown"` (first truthy), the profile
text when `entete` is a dict, and the key experiences. -/
def compare_payload_entry (c : PyVal) : PyVal :=
  match c with
  | .dict kvs =>
    let fnRaw := (pyGet kvs "_filename").getD PyVal.none
    let fn2 := (pyGet kvs "filename").getD PyVal.none
    let fn := if !pyFalsy fnRaw then fnRaw else if !pyFalsy fn2 then fn2 else .str "unknown"
    let profil :=
      match pyGet kvs "entete" with
      | Option.some (.dict ent) => (pyGet ent "resume_profil").getD (.str "")
      | _ => .str ""
    let exps := (pyGet kvs expKey).getD (.list [])
    .dict [("filename", fn), ("profil", profil), (expKey, exps)]
  | _ => .dict [("filename", .str "unknown"), ("profil", .str ""), (expKey, .list [])]

/-- `compare_mission_with_cvs_async` (compare_async.py lines 18-110): build
the payload, make exactly one completion call — there is no retry decorator
and no mission-length check in this function — and validate the reply;
every failure surfaces as the wrapped compare error. -/
def compare_mission_with_cvs_async (client : Nat → Except String PyVal)
    (mission_text : String) (cvs_summaries : List PyVal) :
    Except String CompareResults × Nat :=
  let _payload := (mission_text, cvs_summaries.map compare_payload_entry)
  match client 0 with
  | .error e => (.error ("Compare LLM failed: " ++ e), 1)
  | .ok reply =>
    match parseCompareResults reply with
    | .error ve =>
      (.error ("Compare LLM failed: Compare response did not match expected schema: " ++ ve), 1)
    | .ok v => (.ok v, 1)

/-! ## Document reader gates (ingest.py)

The byte-level parsing of PDF/DOCX is done by external libraries; what the
repository code adds — and what the claims are about — is the assembly of
the recovered text fragments and the uniform minimum-length gate on the
trimmed result. -/

/-- `_read_pdf_bytes` text assembly (ingest.py lines 86-107): join the
per-page texts that are nonempty, strip, and reject under 50 characters. -/
def read_pdf_text (pages : List String) : Except String String :=
  if pages.isEmpty then Except.error "PDF contains no pages"
  else
    let full := pyStrip (String.intercalate "\n" (pages.filter fun p => p ≠ ""))
    if full.length < 50 then
      Except.error "PDF contains insufficient text (possible scanned document)"
    else Except.ok full

/-- `_read_docx` text assembly (ingest.py lines 144-166): stripped nonempty
paragraphs then stripped nonempty table cells, joined and gated. -/
def read_docx_text (paragraphs cells : List String) : Except String String :=
  let parts := (paragraphs.map pyStrip).filter (fun p => p ≠ "") ++
    (cells.map pyStrip).filter (fun p => p ≠ "")
  let full := pyStrip (String.intercalate "\n" parts)
  if full.length < 50 then Except.error "DOCX contains insufficient text"
  else Except.ok full

/-- `_read_txt_bytes` (ingest.py lines 219-237) after decoding: strip and
gate. -/
def read_txt_text (decoded : String) : Except String String :=
  let text := pyStrip decoded
  if text.length < 50 then Except.error "Text content insufficient"
  else Except.ok text

/-! ## Character-class facts used by the symbolic regex proofs -/

theorem groundCharFacts :
    (isSpaceP ' ' = true) ∧ (isSpaceP '→' = false) ∧ (isSpaceP '-' = false) ∧
    (Char.isDigit ' ' = false) ∧ (Char.isDigit '→' = false) ∧ (Char.isDigit '-' = false) ∧
    (isWordCharP ' ' = false) ∧ (isWordCharP '→' = false) ∧ (isWordCharP '-' = false) ∧
    (¬(' ' = '-')) ∧ (¬('→' = '-')) ∧ (¬(' ' = '→')) ∧ (¬('-' = '→')) ∧
    (¬(' ' = '/')) ∧ (¬('→' = '/')) ∧ (¬('-' = '/')) := by decide

/-- A digit is not whitespace. -/
theorem digit_not_space {c : Char} (h : c.isDigit = true) : isSpaceP c = false := by
  cases hw : isSpaceP c
  · rfl
  · exfalso
    have hw' : (c = ' ' || c = '\t' || c = '\r' || c = '\n') = true := by
      simpa [isSpaceP, Char.isWhitespace] using hw
    simp only [Bool.or_eq_true, decide_eq_true_eq] at hw'
    rcases hw' with ((h1 | h1) | h1) | h1 <;>
      (subst h1; exact absurd h (by decide))

/-- A digit is a word character. -/
theorem digit_word {c : Char} (h : c.isDigit = true) : isWordCharP c = true := by
  simp [isWordCharP, Char.isAlphanum, h]

/-- A digit is not the hyphen. -/
theorem digit_ne_dash {c : Char} (h : c.isDigit = true) : ¬(c = '-') := by
  intro he; subst he; exact absurd h (by decide)

/-- A digit is not the arrow. -/
theorem digit_ne_arrow {c : Char} (h : c.isDigit = true) : ¬(c = '→') := by
  intro he; subst he; exact absurd h (by decide)

/-- A digit is not the slash. -/
theorem digit_ne_slash {c : Char} (h : c.isDigit = true) : ¬(c = '/') := by
  intro he; subst he; exact absurd h (by decide)

/-! ## Claim theorems -/

/-- C1: the claim reads "for every valid Dossier d, normalize(d) never
fails".  On the repository's actual Dossier model the opposite holds:
`normalize_extracted_data` raises `AttributeError` on every input, because
its body reads `data.projects` and the `DossierCompetences` schema declares
no such field (and `normalizer.py` even imports the nonexistent `Extracted`
class from `schemas.py`).  This theorem evaluates the embedded code: the
function fails on every dossier. -/
theorem claim_C1_normalize_always_raises :
    (∀ d : DossierCompetences,
      normalize_extracted_data d =
        Except.error "AttributeError: no attribute projects") ∧
    "projects" ∉ dossierCompetencesFields ∧
    "Extracted" ∈ normalizerImportedNames ∧
    "Extracted" ∉ schemasClassNames :=
  ⟨fun _ => rfl, by decide, by decide, by decide⟩

/-- C6: the claim derives `round((24+18)/12) = 4` years from durations
"2 ans" and "18 mois".  The code double-counts "18 mois": the French pattern
`(\d+)\s*mois` adds 18 and the abbreviation pattern `(\d+)\s*mo[s]?` matches
the same text again, adding another 18, so the code computes
`round((24+36)/12) = 5` years — for every wall-clock `now`, since the
date-range fallback is not reached. -/
theorem claim_C6_years_experience_eval :
    ∀ now : Nat × Nat,
      extract_duration_months now "2 ans" = 24 ∧
      extract_duration_months now "18 mois" = 36 ∧
      calculate_years_experience now [⟨"2 ans"⟩, ⟨"18 mois"⟩] = 5 ∧
      pyRoundDiv12 42 = 4 := by
  intro now
  have h1 : extract_duration_months now "2 ans" = 24 := rfl
  have h2 : extract_duration_months now "18 mois" = 36 := rfl
  refine ⟨h1, h2, ?_, rfl⟩
  simp only [calculate_years_experience, List.foldl, h1, h2]
  decide

/-- Values looked up in an association list are among its values. -/
theorem listLookup_mem {α : Type} (kvs : List (String × α)) (k : String) (v : α)
    (h : listLookup kvs k = Option.some v) : v ∈ kvs.map Prod.snd := by
  induction kvs with
  | nil => simp [listLookup] at h
  | cons hd tl ih =>
    obtain ⟨k0, v0⟩ := hd
    by_cases h0 : k0 = k
    · subst h0
      simp [listLookup] at h
      simp [h]
    · simp [listLookup, h0] at h
      simp [ih h]

/-- C9: "b2", "avancé", "native", "c2" land in the intermediate, advanced,
native, native buckets of the exactly-4-level canonical scheme (spelled
`debutant`, `intermediaire`, `courant`, `bilingue` in this code), every
output is one of the 4 canonical levels, and an input matching neither the
canonical labels nor the synonym table defaults to `intermediaire`. -/
theorem claim_C9_language_level_mapping :
    normalize_language_level "b2" = "intermediaire" ∧
    normalize_language_level "avancé" = "courant" ∧
    normalize_language_level "native" = "bilingue" ∧
    normalize_language_level "c2" = "bilingue" ∧
    canonicalLevels = ["debutant", "intermediaire", "courant", "bilingue"] ∧
    (∀ s : String, normalize_language_level s ∈ canonicalLevels) ∧
    (∀ s : String,
      pyStrip (pyLower s) ∉ canonicalLevels →
      listLookup language_level_map (pyStrip (pyLower s)) = Option.none →
      normalize_language_level s = "intermediaire") := by
  refine ⟨by decide, by decide, by decide, by decide, rfl, ?_, ?_⟩
  · intro s
    unfold normalize_language_level
    by_cases hmem : pyStrip (pyLower s) ∈ canonicalLevels
    · simp [hmem]
    · simp only [hmem, if_false, ite_false]
      cases hl : listLookup language_level_map (pyStrip (pyLower s)) with
      | none => simp [hl]; decide
      | some v =>
        simp [hl]
        have hv := listLookup_mem _ _ _ hl
        have hsub : ∀ x ∈ language_level_map.map Prod.snd, x ∈ canonicalLevels := by
          decide
        exact hsub v hv
  · intro s h1 h2
    unfold normalize_language_level
    simp [h1, h2]

/-- Witness for C9's conditional parts at the concrete unmapped input
"klingon" and the mapped input "b2". -/
theorem claim_C9_witness :
    (pyStrip (pyLower "klingon") ∉ canonicalLevels ∧
      listLookup language_level_map (pyStrip (pyLower "klingon")) = Option.none ∧
      normalize_language_level "klingon" = "intermediaire") ∧
    normalize_language_level "b2" ∈ canonicalLevels := by
  refine ⟨⟨by decide, by decide, ?_⟩, ?_⟩
  · exact claim_C9_language_level_mapping.2.2.2.2.2.2 "klingon" (by decide) (by decide)
  · exact claim_C9_language_level_mapping.2.2.2.2.2.1 "b2"

/-- C8: the three canonical examples normalize as stated, and a shape
recognized by none of the four literal patterns nor by the dateutil
fallback split is returned verbatim. -/
theorem claim_C8_date_round_trip :
    normalize_date_range "2022-03 → 2023-02" = "2022-03 → 2023-02" ∧
    normalize_date_range "03/2022 → 02/2023" = "2022-03 → 2023-02" ∧
    normalize_date_range "mars 2022 → février 2023" = "2022-03 → 2023-02" ∧
    (∀ s : String,
      searchAt pat0At s.data = Option.none →
      searchAt pat1At s.data = Option.none →
      pat2Result s.data = Option.none →
      searchAt pat3At s.data = Option.none →
      dateRangeFallback s = Option.none →
      normalize_date_range s = s) := by
  refine ⟨by decide, by decide, by decide, ?_⟩
  intro s h0 h1 h2 h3 h4
  by_cases he : s.data.isEmpty
  · have : s = "" := by
      cases s with
      | mk l => cases l with
        | nil => rfl
        | cons c r => simp [List.isEmpty] at he
    subst this
    rfl
  · unfold normalize_date_range
    simp only [he, if_false, ite_false, h0, h1, h2, h3, h4, Bool.false_eq_true]

/-- Witness for C8's verbatim clause at the concrete unrecognized input
"n/a". -/
theorem claim_C8_witness :
    (searchAt pat0At ("n/a".data) = Option.none ∧
      searchAt pat1At ("n/a".data) = Option.none ∧
      pat2Result ("n/a".data) = Option.none ∧
      searchAt pat3At ("n/a".data) = Option.none ∧
      dateRangeFallback "n/a" = Option.none) ∧
    normalize_date_range "n/a" = "n/a" := by
  refine ⟨⟨by decide, by decide, by decide, by decide, by decide⟩, ?_⟩
  exact claim_C8_date_round_trip.2.2.2 "n/a" (by decide) (by decide) (by decide)
    (by decide) (by decide)

set_option maxHeartbeats 3200000 in
/-- The four pattern searches of `normalize_date_range` on a bare year range
`DDDD → DDDD` with the spaced-arrow separator: the first three fail and the
year pattern captures the two years. -/
theorem yearRange_facts_arrowSp (a b c d e f g h : Char)
    (ha : a.isDigit = true) (hb : b.isDigit = true) (hc : c.isDigit = true)
    (hd : d.isDigit = true) (he : e.isDigit = true) (hf : f.isDigit = true)
    (hg : g.isDigit = true) (hh : h.isDigit = true) :
    searchAt pat0At [a, b, c, d, ' ', '→', ' ', e, f, g, h] = Option.none ∧
    searchAt pat1At [a, b, c, d, ' ', '→', ' ', e, f, g, h] = Option.none ∧
    searchAt pat2At [a, b, c, d, ' ', '→', ' ', e, f, g, h] = Option.none ∧
    searchAt pat3At [a, b, c, d, ' ', '→', ' ', e, f, g, h] =
      Option.some ([a, b, c, d], [e, f, g, h]) := by
  refine ⟨?_, ?_, ?_, ?_⟩ <;>
    simp only [searchAt, pat0At, pat1At, pat2At, pat3At, take4C, take2C,
      expectChar, expectArrowDash, skipWs, takeRun, takeRun1,
      groundCharFacts, ha, hb, hc, hd, he, hf, hg, hh,
      digit_not_space ha, digit_not_space hb, digit_not_space hc,
      digit_not_space hd, digit_not_space he, digit_not_space hf,
      digit_not_space hg, digit_not_space hh,
      digit_word ha, digit_word hb, digit_word hc, digit_word hd,
      digit_word he, digit_word hf, digit_word hg, digit_word hh,
      digit_ne_dash ha, digit_ne_dash hb, digit_ne_dash hc, digit_ne_dash hd,
      digit_ne_dash he, digit_ne_dash hf, digit_ne_dash hg, digit_ne_dash hh,
      digit_ne_arrow ha, digit_ne_arrow hb, digit_ne_arrow hc, digit_ne_arrow hd,
      digit_ne_arrow he, digit_ne_arrow hf, digit_ne_arrow hg, digit_ne_arrow hh,
      digit_ne_slash ha, digit_ne_slash hb, digit_ne_slash hc, digit_ne_slash hd,
      digit_ne_slash he, digit_ne_slash hf, digit_ne_slash hg, digit_ne_slash hh,
      Bool.true_and, Bool.and_true, Bool.and_false, Bool.false_and,
      Bool.false_eq_true, Bool.true_eq_false,
      if_true, if_false, ite_true, ite_false, eq_self_iff_true,
      Option.some_bind, Option.none_bind, Option.map_none, Option.map_some,
      Option.map_some', Option.map_none',
      reduceIte]

set_option maxHeartbeats 3200000 in
/-- The same pattern facts for the bare-arrow separator `DDDD→DDDD`. -/
theorem yearRange_facts_arrow (a b c d e f g h : Char)
    (ha : a.isDigit = true) (hb : b.isDigit = true) (hc : c.isDigit = true)
    (hd : d.isDigit = true) (he : e.isDigit = true) (hf : f.isDigit = true)
    (hg : g.isDigit = true) (hh : h.isDigit = true) :
    searchAt pat0At [a, b, c, d, '→', e, f, g, h] = Option.none ∧
    searchAt pat1At [a, b, c, d, '→', e, f, g, h] = Option.none ∧
    searchAt pat2At [a, b, c, d, '→', e, f, g, h] = Option.none ∧
    searchAt pat3At [a, b, c, d, '→', e, f, g, h] =
      Option.some ([a, b, c, d], [e, f, g, h]) := by
  refine ⟨?_, ?_, ?_, ?_⟩ <;>
    simp only [searchAt, pat0At, pat1At, pat2At, pat3At, take4C, take2C,
      expectChar, expectArrowDash, skipWs, takeRun, takeRun1,
      groundCharFacts, ha, hb, hc, hd, he, hf, hg, hh,
      digit_not_space ha, digit_not_space hb, digit_not_space hc,
      digit_not_space hd, digit_not_space he, digit_not_space hf,
      digit_not_space hg, digit_not_space hh,
      digit_word ha, digit_word hb, digit_word hc, digit_word hd,
      digit_word he, digit_word hf, digit_word hg, digit_word hh,
      digit_ne_dash ha, digit_ne_dash hb, digit_ne_dash hc, digit_ne_dash hd,
      digit_ne_dash he, digit_ne_dash hf, digit_ne_dash hg, digit_ne_dash hh,
      digit_ne_arrow ha, digit_ne_arrow hb, digit_ne_arrow hc, digit_ne_arrow hd,
      digit_ne_arrow he, digit_ne_arrow hf, digit_ne_arrow hg, digit_ne_arrow hh,
      digit_ne_slash ha, digit_ne_slash hb, digit_ne_slash hc, digit_ne_slash hd,
      digit_ne_slash he, digit_ne_slash hf, digit_ne_slash hg, digit_ne_slash hh,
      Bool.true_and, Bool.and_true, Bool.and_false, Bool.false_and,
      Bool.false_eq_true, Bool.true_eq_false,
      if_true, if_false, ite_true, ite_false, eq_self_iff_true,
      Option.some_bind, Option.none_bind, Option.map_none, Option.map_some,
      Option.map_some', Option.map_none',
      reduceIte]

set_option maxHeartbeats 3200000 in
/-- The same pattern facts for the spaced-hyphen separator `DDDD - DDDD`. -/
theorem yearRange_facts_dashSp (a b c d e f g h : Char)
    (ha : a.isDigit = true) (hb : b.isDigit = true) (hc : c.isDigit = true)
    (hd : d.isDigit = true) (he : e.isDigit = true) (hf : f.isDigit = true)
    (hg : g.isDigit = true) (hh : h.isDigit = true) :
    searchAt pat0At [a, b, c, d, ' ', '-', ' ', e, f, g, h] = Option.none ∧
    searchAt pat1At [a, b, c, d, ' ', '-', ' ', e, f, g, h] = Option.none ∧
    searchAt pat2At [a, b, c, d, ' ', '-', ' ', e, f, g, h] = Option.none ∧
    searchAt pat3At [a, b, c, d, ' ', '-', ' ', e, f, g, h] =
      Option.some ([a, b, c, d], [e, f, g, h]) := by
  refine ⟨?_, ?_, ?_, ?_⟩ <;>
    simp only [searchAt, pat0At, pat1At, pat2At, pat3At, take4C, take2C,
      expectChar, expectArrowDash, skipWs, takeRun, takeRun1,
      groundCharFacts, ha, hb, hc, hd, he, hf, hg, hh,
      digit_not_space ha, digit_not_space hb, digit_not_space hc,
      digit_not_space hd, digit_not_space he, digit_not_space hf,
      digit_not_space hg, digit_not_space hh,
      digit_word ha, digit_word hb, digit_word hc, digit_word hd,
      digit_word he, digit_word hf, digit_word hg, digit_word hh,
      digit_ne_dash ha, digit_ne_dash hb, digit_ne_dash hc, digit_ne_dash hd,
      digit_ne_dash he, digit_ne_dash hf, digit_ne_dash hg, digit_ne_dash hh,
      digit_ne_arrow ha, digit_ne_arrow hb, digit_ne_arrow hc, digit_ne_arrow hd,
      digit_ne_arrow he, digit_ne_arrow hf, digit_ne_arrow hg, digit_ne_arrow hh,
      digit_ne_slash ha, digit_ne_slash hb, digit_ne_slash hc, digit_ne_slash hd,
      digit_ne_slash he, digit_ne_slash hf, digit_ne_slash hg, digit_ne_slash hh,
      Bool.true_and, Bool.and_true, Bool.and_false, Bool.false_and,
      Bool.false_eq_true, Bool.true_eq_false,
      if_true, if_false, ite_true, ite_false, eq_self_iff_true,
      Option.some_bind, Option.none_bind, Option.map_none, Option.map_some,
      Option.map_some', Option.map_none',
      reduceIte]

set_option maxHeartbeats 3200000 in
/-- The same pattern facts for the bare-hyphen separator `DDDD-DDDD`. -/
theorem yearRange_facts_dash (a b c d e f g h : Char)
    (ha : a.isDigit = true) (hb : b.isDigit = true) (hc : c.isDigit = true)
    (hd : d.isDigit = true) (he : e.isDigit = true) (hf : f.isDigit = true)
    (hg : g.isDigit = true) (hh : h.isDigit = true) :
    searchAt pat0At [a, b, c, d, '-', e, f, g, h] = Option.none ∧
    searchAt pat1At [a, b, c, d, '-', e, f, g, h] = Option.none ∧
    searchAt pat2At [a, b, c, d, '-', e, f, g, h] = Option.none ∧
    searchAt pat3At [a, b, c, d, '-', e, f, g, h] =
      Option.some ([a, b, c, d], [e, f, g, h]) := by
  refine ⟨?_, ?_, ?_, ?_⟩ <;>
    simp only [searchAt, pat0At, pat1At, pat2At, pat3At, take4C, take2C,
      expectChar, expectArrowDash, skipWs, takeRun, takeRun1,
      groundCharFacts, ha, hb, hc, hd, he, hf, hg, hh,
      digit_not_space ha, digit_not_space hb, digit_not_space hc,
      digit_not_space hd, digit_not_space he, digit_not_space hf,
      digit_not_space hg, digit_not_space hh,
      digit_word ha, digit_word hb, digit_word hc, digit_word hd,
      digit_word he, digit_word hf, digit_word hg, digit_word hh,
      digit_ne_dash ha, digit_ne_dash hb, digit_ne_dash hc, digit_ne_dash hd,
      digit_ne_dash he, digit_ne_dash hf, digit_ne_dash hg, digit_ne_dash hh,
      digit_ne_arrow ha, digit_ne_arrow hb, digit_ne_arrow hc, digit_ne_arrow hd,
      digit_ne_arrow he, digit_ne_arrow hf, digit_ne_arrow hg, digit_ne_arrow hh,
      digit_ne_slash ha, digit_ne_slash hb, digit_ne_slash hc, digit_ne_slash hd,
      digit_ne_slash he, digit_ne_slash hf, digit_ne_slash hg, digit_ne_slash hh,
      Bool.true_and, Bool.and_true, Bool.and_false, Bool.false_and,
      Bool.false_eq_true, Bool.true_eq_false,
      if_true, if_false, ite_true, ite_false, eq_self_iff_true,
      Option.some_bind, Option.none_bind, Option.map_none, Option.map_some,
      Option.map_some', Option.map_none',
      reduceIte]

/-- Rebuild `normalize_date_range` output from the four pattern facts. -/
theorem normalize_date_range_of_facts (l : List Char) (y1 y2 : List Char)
    (hne : l.isEmpty = false)
    (h0 : searchAt pat0At l = Option.none)
    (h1 : searchAt pat1At l = Option.none)
    (h2 : searchAt pat2At l = Option.none)
    (h3 : searchAt pat3At l = Option.some (y1, y2)) :
    normalize_date_range (String.mk l) = String.mk
      (y1 ++ '-' :: '0' :: '1' :: arrowSep ++ y2 ++ '-' :: '1' :: '2' :: []) := by
  unfold normalize_date_range
  simp only [h0, h1, h3, Bool.false_eq_true, hne, if_false, ite_false,
    pat2Result, h2]

/-- C10: a bare year-only range `YYYY1 sep YYYY2`, for an arrow or hyphen
separator with or without surrounding spaces, normalizes to
`YYYY1-01 → YYYY2-12`: January is filled in as the start month and December
as the end month. -/
theorem claim_C10_year_only_fill (a b c d e f g h : Char)
    (ha : a.isDigit = true) (hb : b.isDigit = true) (hc : c.isDigit = true)
    (hd : d.isDigit = true) (he : e.isDigit = true) (hf : f.isDigit = true)
    (hg : g.isDigit = true) (hh : h.isDigit = true) :
    ∀ sep ∈ [[' ', '→', ' '], ['→'], [' ', '-', ' '], ['-']],
      normalize_date_range (String.mk ([a, b, c, d] ++ sep ++ [e, f, g, h])) =
        String.mk ([a, b, c, d] ++ '-' :: '0' :: '1' :: arrowSep ++
          [e, f, g, h] ++ '-' :: '1' :: '2' :: []) := by
  intro sep hsep
  simp only [List.mem_cons, List.mem_singleton] at hsep
  rcases hsep with h | h | h | (h | hfalse)
  · subst h
    obtain ⟨f0, f1, f2, f3⟩ := yearRange_facts_arrowSp a b c d e f g h
      ha hb hc hd he hf hg hh
    exact normalize_date_range_of_facts _ _ _ rfl f0 f1 f2 f3
  · subst h
    obtain ⟨f0, f1, f2, f3⟩ := yearRange_facts_arrow a b c d e f g h
      ha hb hc hd he hf hg hh
    exact normalize_date_range_of_facts _ _ _ rfl f0 f1 f2 f3
  · subst h
    obtain ⟨f0, f1, f2, f3⟩ := yearRange_facts_dashSp a b c d e f g h
      ha hb hc hd he hf hg hh
    exact normalize_date_range_of_facts _ _ _ rfl f0 f1 f2 f3
  · subst h
    obtain ⟨f0, f1, f2, f3⟩ := yearRange_facts_dash a b c d e f g h
      ha hb hc hd he hf hg hh
    exact normalize_date_range_of_facts _ _ _ rfl f0 f1 f2 f3
  · cases hfalse

/-- Witness for C10 at the concrete range "2022 → 2023". -/
theorem claim_C10_witness :
    ('2'.isDigit = true ∧ '0'.isDigit = true ∧ '3'.isDigit = true) ∧
    normalize_date_range "2022 → 2023" = "2022-01 → 2023-12" := by
  refine ⟨⟨by decide, by decide, by decide⟩, ?_⟩
  exact claim_C10_year_only_fill '2' '0' '2' '2' '2' '0' '2' '3'
    (by decide) (by decide) (by decide) (by decide) (by decide) (by decide)
    (by decide) (by decide) [' ', '→', ' '] (by decide)

/-! ## Skill-cleanup soundness (for C7) -/

/-- Inverting a successful `Except` bind. -/
theorem except_bind_ok {ε α β : Type} (a : Except ε α) (f : α → Except ε β) (b : β)
    (h : (a >>= f) = Except.ok b) : ∃ v, a = Except.ok v ∧ f v = Except.ok b := by
  cases a with
  | error e => simp [Bind.bind, Except.bind] at h
  | ok v => exact ⟨v, rfl, by simpa [Bind.bind, Except.bind] using h⟩

/-- Inverting a successful `normTechCategory`. -/
theorem normTechCategory_ok (v : PyVal) (p : PyVal)
    (h : normTechCategory v = Except.ok p) :
    ∃ cl, clean_skill_list v = Except.ok cl ∧
      p = PyVal.str (String.intercalate ", " cl) := by
  unfold normTechCategory at h
  cases hc : clean_skill_list v with
  | error e => rw [hc] at h; simp [Except.map] at h
  | ok cl =>
    rw [hc] at h
    simp [Except.map] at h
    exact ⟨cl, rfl, h.symm⟩

/-- Soundness of the cleanup loop: given that the lowered accumulator keys
sit in `seen` and are distinct, a successful run produces a list whose
lowered forms are distinct, and every produced element either was
accumulated before or is the strip+title of a string item of the input. -/
theorem cleanSkillAux_spec (items : List PyVal) :
    ∀ (acc seen : List String) (l : List String),
      (∀ x ∈ acc, pyLower x ∈ seen) →
      (acc.map pyLower).Nodup →
      cleanSkillAux items acc seen = Except.ok l →
      (l.map pyLower).Nodup ∧
      ∀ x ∈ l, x ∈ acc.reverse ∨
        ∃ s, PyVal.str s ∈ items ∧ x = pyTitle (pyStrip s) := by
  induction items with
  | nil =>
    intro acc seen l hacc hnd h
    simp [cleanSkillAux] at h
    subst h
    constructor
    · rw [List.map_reverse]
      exact List.nodup_reverse.mpr hnd
    · intro x hx
      exact Or.inl hx
  | cons it rest ih =>
    intro acc seen l hacc hnd h
    have skipCase : cleanSkillAux rest acc seen = Except.ok l →
        (l.map pyLower).Nodup ∧
        ∀ x ∈ l, x ∈ acc.reverse ∨
          ∃ s, PyVal.str s ∈ (it :: rest) ∧ x = pyTitle (pyStrip s) := by
      intro h'
      obtain ⟨h1, h2⟩ := ih acc seen l hacc hnd h'
      refine ⟨h1, fun x hx => ?_⟩
      rcases h2 x hx with hl | ⟨s, hs, he⟩
      · exact Or.inl hl
      · exact Or.inr ⟨s, List.mem_cons_of_mem _ hs, he⟩
    cases it with
    | none =>
      rw [cleanSkillAux] at h
      exact skipCase h
    | str s =>
      rw [cleanSkillAux] at h
      by_cases hblank : pyStrip s = ""
      · rw [if_pos hblank] at h
        exact skipCase h
      · rw [if_neg hblank] at h
        simp only [] at h
        by_cases hseen : pyLower (pyTitle (pyStrip s)) ∈ seen
        · rw [if_pos hseen] at h
          exact skipCase h
        · rw [if_neg hseen] at h
          have hacc' : ∀ x ∈ (pyTitle (pyStrip s) :: acc),
              pyLower x ∈ (pyLower (pyTitle (pyStrip s)) :: seen) := by
            intro x hx
            rcases List.mem_cons.mp hx with he | hm
            · subst he; exact List.mem_cons_self _ _
            · exact List.mem_cons_of_mem _ (hacc x hm)
          have hnd' : ((pyTitle (pyStrip s) :: acc).map pyLower).Nodup := by
            simp only [List.map_cons]
            refine List.Nodup.cons ?_ hnd
            intro hmem
            apply hseen
            rcases List.mem_map.mp hmem with ⟨y, hy, hey⟩
            exact hey ▸ hacc y hy
          obtain ⟨h1, h2⟩ := ih _ _ l hacc' hnd' h
          refine ⟨h1, fun x hx => ?_⟩
          rcases h2 x hx with hl | ⟨s', hs', he'⟩
          · rw [List.reverse_cons] at hl
            rcases List.mem_append.mp hl with hm | hm
            · exact Or.inl hm
            · simp only [List.mem_singleton] at hm
              exact Or.inr ⟨s, List.mem_cons_self _ _, hm⟩
          · exact Or.inr ⟨s', List.mem_cons_of_mem _ hs', he'⟩
    | int n =>
      rw [cleanSkillAux] at h
      by_cases hn : n = 0
      · rw [if_pos hn] at h
        exact skipCase h
      · rw [if_neg hn] at h
        cases h
    | bool b =>
      rw [cleanSkillAux] at h
      cases b
      · rw [if_neg (by simp)] at h
        exact skipCase h
      · rw [if_pos rfl] at h
        cases h
    | list xs =>
      rw [cleanSkillAux] at h
      by_cases hxs : xs.isEmpty = true
      · rw [if_pos hxs] at h
        exact skipCase h
      · rw [if_neg hxs] at h
        cases h
    | dict kvs =>
      rw [cleanSkillAux] at h
      by_cases hkvs : kvs.isEmpty = true
      · rw [if_pos hkvs] at h
        exact skipCase h
      · rw [if_neg hkvs] at h
        cases h

/-- Soundness of `clean_skill_list`: the cleaned list is case-insensitively
duplicate-free and every element is the strip+title of a string item of the
iterated input. -/
theorem clean_skill_list_spec (v : PyVal) (l : List String)
    (h : clean_skill_list v = Except.ok l) :
    (l.map pyLower).Nodup ∧
    ∀ x ∈ l, ∃ items s, pyIterate v = Except.ok items ∧
      PyVal.str s ∈ items ∧ x = pyTitle (pyStrip s) := by
  unfold clean_skill_list at h
  by_cases hfal : pyFalsy v = true
  · rw [if_pos hfal] at h
    simp at h
    subst h
    exact ⟨List.nodup_nil, by intro x hx; cases hx⟩
  · rw [if_neg hfal] at h
    cases hit : pyIterate v with
    | error e => rw [hit] at h; simp [Except.bind] at h
    | ok items =>
      rw [hit] at h
      simp only [Except.bind] at h
      obtain ⟨h1, h2⟩ := cleanSkillAux_spec items [] [] l
        (by intro x hx; cases hx) List.nodup_nil h
      refine ⟨h1, fun x hx => ?_⟩
      rcases h2 x hx with hl | ⟨s, hs, he⟩
      · cases hl
      · exact ⟨items, s, rfl, hs, he⟩

/-- A fixed malformed-free skills record used as C7's concrete input: the
first technical category holds a list with a duplicate-after-cleanup
entry. -/
def skillsExample : SkillsDyn :=
  { technical :=
      { language_framework := .list [.str "python", .str " PYTHON "],
        ci_cd := .list [], state_management := .list [], tests := .list [],
        tools := .list [], databases_big_data := .list [],
        analytics_visualization := .list [], collaboration := .list [],
        ux_ui := .list [] },
    functional := .list [.str "gestion", .str "GESTION"],
    management := .list [] }

/-- C7 counterexample: the claim says the cleanup "never changes a list
field to a scalar", but `normalize_skills` turns the list-valued
`language_framework` category into the comma-joined string "Python" (the
code's own comment calls it conversion "for frontend compatibility"). -/
theorem claim_C7_counterexample :
    skillsExample.technical.language_framework.isList = true ∧
    (normalize_skills skillsExample).map
      (fun r => r.technical.language_framework) =
        Except.ok (PyVal.str "Python") ∧
    (normalize_skills skillsExample).map
      (fun r => r.technical.language_framework.isList) = Except.ok false :=
  ⟨rfl, rfl, rfl⟩

/-- C7 amended: the cleanup does trim, title-case and case-insensitively
deduplicate within each category and the functional/management lists, but
each of the 9 technical categories is then joined into one comma-separated
string (a scalar), while `functional` and `management` remain lists. -/
theorem claim_C7_amended_cleanup (s r : SkillsDyn)
    (h : normalize_skills s = Except.ok r) :
    (r.technical.language_framework.isStr = true ∧
     r.technical.ci_cd.isStr = true ∧
     r.technical.state_management.isStr = true ∧
     r.technical.tests.isStr = true ∧
     r.technical.tools.isStr = true ∧
     r.technical.databases_big_data.isStr = true ∧
     r.technical.analytics_visualization.isStr = true ∧
     r.technical.collaboration.isStr = true ∧
     r.technical.ux_ui.isStr = true) ∧
    (∃ cl, clean_skill_list s.technical.language_framework = Except.ok cl ∧
      r.technical.language_framework =
        PyVal.str (String.intercalate ", " cl) ∧
      (cl.map pyLower).Nodup) ∧
    (∃ fn, clean_skill_list s.functional = Except.ok fn ∧
      r.functional = PyVal.list (fn.map PyVal.str) ∧
      (fn.map pyLower).Nodup ∧
      ∀ x ∈ fn, ∃ items s0, pyIterate s.functional = Except.ok items ∧
        PyVal.str s0 ∈ items ∧ x = pyTitle (pyStrip s0)) ∧
    (∃ mg, clean_skill_list s.management = Except.ok mg ∧
      r.management = PyVal.list (mg.map PyVal.str) ∧
      (mg.map pyLower).Nodup) := by
  simp only [normalize_skills] at h
  obtain ⟨lf, hlf, h⟩ := except_bind_ok _ _ _ h
  obtain ⟨ci, hci, h⟩ := except_bind_ok _ _ _ h
  obtain ⟨sm, hsm, h⟩ := except_bind_ok _ _ _ h
  obtain ⟨ts, hts, h⟩ := except_bind_ok _ _ _ h
  obtain ⟨tl, htl, h⟩ := except_bind_ok _ _ _ h
  obtain ⟨db, hdb, h⟩ := except_bind_ok _ _ _ h
  obtain ⟨av, hav, h⟩ := except_bind_ok _ _ _ h
  obtain ⟨co, hco, h⟩ := except_bind_ok _ _ _ h
  obtain ⟨ux, hux, h⟩ := except_bind_ok _ _ _ h
  obtain ⟨fn, hfn, h⟩ := except_bind_ok _ _ _ h
  obtain ⟨mg, hmg, h⟩ := except_bind_ok _ _ _ h
  have hr : r = ⟨⟨lf, ci, sm, ts, tl, db, av, co, ux⟩,
      PyVal.list (fn.map PyVal.str), PyVal.list (mg.map PyVal.str)⟩ := by
    cases h; rfl
  subst hr
  obtain ⟨cl1, hcl1, he1⟩ := normTechCategory_ok _ _ hlf
  obtain ⟨cl2, hcl2, he2⟩ := normTechCategory_ok _ _ hci
  obtain ⟨cl3, hcl3, he3⟩ := normTechCategory_ok _ _ hsm
  obtain ⟨cl4, hcl4, he4⟩ := normTechCategory_ok _ _ hts
  obtain ⟨cl5, hcl5, he5⟩ := normTechCategory_ok _ _ htl
  obtain ⟨cl6, hcl6, he6⟩ := normTechCategory_ok _ _ hdb
  obtain ⟨cl7, hcl7, he7⟩ := normTechCategory_ok _ _ hav
  obtain ⟨cl8, hcl8, he8⟩ := normTechCategory_ok _ _ hco
  obtain ⟨cl9, hcl9, he9⟩ := normTechCategory_ok _ _ hux
  refine ⟨⟨?_, ?_, ?_, ?_, ?_, ?_, ?_, ?_, ?_⟩, ?_, ?_, ?_⟩
  · rw [he1]; rfl
  · rw [he2]; rfl
  · rw [he3]; rfl
  · rw [he4]; rfl
  · rw [he5]; rfl
  · rw [he6]; rfl
  · rw [he7]; rfl
  · rw [he8]; rfl
  · rw [he9]; rfl
  · exact ⟨cl1, hcl1, by rw [he1], (clean_skill_list_spec _ _ hcl1).1⟩
  · obtain ⟨hnd, hsrc⟩ := clean_skill_list_spec _ _ hfn
    exact ⟨fn, hfn, rfl, hnd, hsrc⟩
  · exact ⟨mg, hmg, rfl, (clean_skill_list_spec _ _ hmg).1⟩

/-- Witness for C7's amended theorem at the concrete `skillsExample`. -/
theorem claim_C7_witness :
    (∃ r, normalize_skills skillsExample = Except.ok r ∧
      r.technical.language_framework.isStr = true ∧
      r.functional = PyVal.list [PyVal.str "Gestion"]) := by
  refine ⟨⟨⟨.str "Python", .str "", .str "", .str "", .str "", .str "",
    .str "", .str "", .str ""⟩, .list [.str "Gestion"], .list []⟩, rfl, ?_, rfl⟩
  exact (claim_C7_amended_cleanup skillsExample _ rfl).1.1

/-! ## Idempotence of the mechanical repair pass (for C5) -/

/-- `coerce_list_to_string` is idempotent: its output is never a list. -/
theorem coerce_idem (v : PyVal) :
    coerce_list_to_string (coerce_list_to_string v) = coerce_list_to_string v := by
  cases v <;> rfl

/-- `pySet` on an already-present key preserves key presence everywhere. -/
theorem pyHasKey_pySet_present (kvs : List (String × PyVal)) (k0 k : String)
    (v : PyVal) (h : pyHasKey kvs k0 = true) :
    pyHasKey (pySet kvs k0 v) k = pyHasKey kvs k := by
  rw [pyHasKey_pySet]
  by_cases he : k0 = k
  · subst he; simp [h]
  · simp [he]

/-- The per-experience `responsabilites` fixup is idempotent. -/
theorem fixResp_idem (x : PyVal) :
    fixResponsabilites (fixResponsabilites x) = fixResponsabilites x := by
  cases x with
  | dict ex =>
    unfold fixResponsabilites
    cases hr : pyGet ex "responsabilites" with
    | none => simp [hr]
    | some v =>
      cases v with
      | str s => simp [hr, pyGet_pySet_same]
      | none => simp [hr]
      | int n => simp [hr]
      | bool b => simp [hr]
      | list xs => simp [hr]
      | dict kvs => simp [hr]
  | none => rfl
  | str s => rfl
  | int n => rfl
  | bool b => rfl
  | list xs => rfl

/-- Fixed point of repair stage 1: the `encadrement` value (when the
functional-skills record is a dict carrying that key) is already
coerce-fixed. -/
def encFixed (d : List (String × PyVal)) : Prop :=
  ∀ cf, pyGet d cfKey = Option.some (.dict cf) →
    pyHasKey cf "encadrement" = true →
    ∃ x, pyGet cf "encadrement" = Option.some x ∧ coerce_list_to_string x = x

/-- Fixed point of repair stage 2: every reparable header field present in a
dict-valued `entete` is already coerce-fixed. -/
def headerFixed (d : List (String × PyVal)) : Prop :=
  ∀ ent, pyGet d "entete" = Option.some (.dict ent) →
    ∀ k ∈ reparableHeaderKeys, pyHasKey ent k = true →
      ∃ x, pyGet ent k = Option.some x ∧ coerce_list_to_string x = x

/-- Fixed point of repair stage 3: the experiences slot holds either a list
that the per-element fixup leaves unchanged, or a string. -/
def expFixed (d : List (String × PyVal)) : Prop :=
  ∃ v, pyGet d expKey = Option.some v ∧
    ((∃ xs, v = PyVal.list xs ∧ xs.map fixResponsabilites = xs) ∨
      ∃ s, v = PyVal.str s)

/-- Stage 1 is the identity on its fixed points. -/
theorem stage1_of_fixed (d : List (String × PyVal)) (hf : encFixed d) :
    repairStage1 d = d := by
  unfold repairStage1
  cases hget : pyGet d cfKey with
  | none => rfl
  | some v =>
    cases v with
    | dict cf =>
      by_cases hk : pyHasKey cf "encadrement" = true
      · obtain ⟨x, hx, hcx⟩ := hf cf hget hk
        simp only [hk, if_true, ite_true, hx, Option.getD_some, hcx]
        rw [pySet_pyGet_same _ _ _ hx, pySet_pyGet_same _ _ _ hget]
      · simp [hk]
    | none => rfl
    | str s => rfl
    | int n => rfl
    | bool b => rfl
    | list xs => rfl

/-- Stage 1 establishes its own fixed point. -/
theorem stage1_establishes (d : List (String × PyVal)) :
    encFixed (repairStage1 d) := by
  unfold repairStage1
  cases hget : pyGet d cfKey with
  | none => intro cf hcf hk; rw [hget] at hcf; cases hcf
  | some v =>
    cases v with
    | dict cf =>
      by_cases hk : pyHasKey cf "encadrement" = true
      · simp only [hk, if_true, ite_true]
        intro cf' hcf' hk'
        rw [pyGet_pySet_same] at hcf'
        cases hcf'
        exact ⟨_, pyGet_pySet_same _ _ _, coerce_idem _⟩
      · simp only [hk, Bool.false_eq_true, if_false, ite_false, reduceIte]
        intro cf' hcf' hk'
        rw [hget] at hcf'
        cases hcf'
        exact absurd hk' hk
    | none => intro cf hcf hk; rw [hget] at hcf; cases hcf
    | str s => intro cf hcf hk; rw [hget] at hcf; cases hcf
    | int n => intro cf hcf hk; rw [hget] at hcf; cases hcf
    | bool b => intro cf hcf hk; rw [hget] at hcf; cases hcf
    | list xs => intro cf hcf hk; rw [hget] at hcf; cases hcf

/-- Stage 1 only touches the functional-skills key. -/
theorem stage1_get_ne (d : List (String × PyVal)) (k : String) (hk : k ≠ cfKey) :
    pyGet (repairStage1 d) k = pyGet d k := by
  unfold repairStage1
  cases hget : pyGet d cfKey with
  | none => rfl
  | some v =>
    cases v with
    | dict cf =>
      by_cases he : pyHasKey cf "encadrement" = true
      · simp only [he, if_true, ite_true]
        exact pyGet_pySet_ne _ _ _ _ (fun h => hk h.symm)
      · simp [he]
    | none => rfl
    | str s => rfl
    | int n => rfl
    | bool b => rfl
    | list xs => rfl

/-- Stage 1 preserves key presence at every level it touches. -/
theorem stage1_hasKey (d : List (String × PyVal)) (k : String) :
    pyHasKey (repairStage1 d) k = pyHasKey d k := by
  unfold repairStage1
  cases hget : pyGet d cfKey with
  | none => rfl
  | some v =>
    cases v with
    | dict cf =>
      by_cases he : pyHasKey cf "encadrement" = true
      · simp only [he, if_true, ite_true]
        refine pyHasKey_pySet_present _ _ _ _ ?_
        rw [pyHasKey_iff_pyGet, hget]
        rfl
      · simp [he]
    | none => rfl
    | str s => rfl
    | int n => rfl
    | bool b => rfl
    | list xs => rfl

/-- `coerceKeys` preserves key presence. -/
theorem coerceKeys_hasKey (ks : List String) :
    ∀ (ent : List (String × PyVal)) (k : String),
      pyHasKey (coerceKeys ks ent) k = pyHasKey ent k := by
  induction ks with
  | nil => intro ent k; rfl
  | cons k0 ks ih =>
    intro ent k
    rw [coerceKeys]
    by_cases h0 : pyHasKey ent k0 = true
    · rw [if_pos h0, ih, pyHasKey_pySet_present _ _ _ _ h0]
    · rw [if_neg h0, ih]

/-- Any slot after `coerceKeys` holds either its old value or the coercion
of its old value. -/
theorem coerceKeys_get_cases (ks : List String) :
    ∀ (ent : List (String × PyVal)) (k : String),
      pyGet (coerceKeys ks ent) k = pyGet ent k ∨
      ∃ y, pyGet ent k = Option.some y ∧
        pyGet (coerceKeys ks ent) k = Option.some (coerce_list_to_string y) := by
  induction ks with
  | nil => intro ent k; exact Or.inl rfl
  | cons k0 ks ih =>
    intro ent k
    rw [coerceKeys]
    by_cases h0 : pyHasKey ent k0 = true
    · rw [if_pos h0]
      have hy0 : ∃ y0, pyGet ent k0 = Option.some y0 := by
        have := (pyHasKey_iff_pyGet ent k0).mp h0
        cases hg : pyGet ent k0 with
        | none => rw [hg] at this; cases this
        | some y0 => exact ⟨y0, rfl⟩
      obtain ⟨y0, hy0⟩ := hy0
      by_cases hk : k0 = k
      · subst hk
        have hstep : pyGet (pySet ent k0
            (coerce_list_to_string ((pyGet ent k0).getD PyVal.none))) k0 =
            Option.some (coerce_list_to_string y0) := by
          rw [hy0]; exact pyGet_pySet_same _ _ _
        rcases ih _ k0 with hc | ⟨z, hz, hfz⟩
        · rw [hc, hstep]
          exact Or.inr ⟨y0, hy0, rfl⟩
        · rw [hstep] at hz
          cases hz
          rw [hfz, coerce_idem]
          exact Or.inr ⟨y0, hy0, rfl⟩
      · have hstep : pyGet (pySet ent k0
            (coerce_list_to_string ((pyGet ent k0).getD PyVal.none))) k =
            pyGet ent k := pyGet_pySet_ne _ _ _ _ hk
        rcases ih _ k with hc | ⟨z, hz, hfz⟩
        · rw [hc, hstep]; exact Or.inl rfl
        · rw [hstep] at hz
          exact Or.inr ⟨z, hz, hfz⟩
    · rw [if_neg h0]
      exact ih ent k

/-- After `coerceKeys`, every present key of the list is coerce-fixed. -/
theorem coerceKeys_establishes (ks : List String) :
    ∀ (ent : List (String × PyVal)) (k : String), k ∈ ks →
      pyHasKey (coerceKeys ks ent) k = true →
      ∃ x, pyGet (coerceKeys ks ent) k = Option.some x ∧
        coerce_list_to_string x = x := by
  induction ks with
  | nil => intro ent k hmem; cases hmem
  | cons k0 ks ih =>
    intro ent k hmem hhk
    rw [coerceKeys] at hhk ⊢
    by_cases hks : k ∈ ks
    · exact ih _ k hks hhk
    · have hk0 : k = k0 := by
        rcases List.mem_cons.mp hmem with he | hm
        · exact he
        · exact absurd hm hks
      subst hk0
      by_cases h0 : pyHasKey ent k = true
      · rw [if_pos h0] at hhk ⊢
        have hy0 : ∃ y0, pyGet ent k = Option.some y0 := by
          have := (pyHasKey_iff_pyGet ent k).mp h0
          cases hg : pyGet ent k with
          | none => rw [hg] at this; cases this
          | some y0 => exact ⟨y0, rfl⟩
        obtain ⟨y0, hy0⟩ := hy0
        have hstep : pyGet (pySet ent k
            (coerce_list_to_string ((pyGet ent k).getD PyVal.none))) k =
            Option.some (coerce_list_to_string y0) := by
          rw [hy0]; exact pyGet_pySet_same _ _ _
        rcases coerceKeys_get_cases ks _ k with hc | ⟨z, hz, hfz⟩
        · rw [hc, hstep]
          exact ⟨_, rfl, coerce_idem _⟩
        · rw [hstep] at hz
          cases hz
          rw [hfz, coerce_idem]
          exact ⟨_, rfl, coerce_idem _⟩
      · rw [if_neg h0] at hhk
        rw [coerceKeys_hasKey] at hhk
        exact absurd hhk h0

/-- `coerceKeys` is the identity when every present key is already fixed. -/
theorem coerceKeys_of_fixed (ks : List String) :
    ∀ (ent : List (String × PyVal)),
      (∀ k ∈ ks, pyHasKey ent k = true →
        ∃ x, pyGet ent k = Option.some x ∧ coerce_list_to_string x = x) →
      coerceKeys ks ent = ent := by
  induction ks with
  | nil => intro ent _; rfl
  | cons k0 ks ih =>
    intro ent hf
    rw [coerceKeys]
    by_cases h0 : pyHasKey ent k0 = true
    · obtain ⟨x, hx, hcx⟩ := hf k0 (List.mem_cons_self _ _) h0
      rw [if_pos h0, hx]
      simp only [Option.getD_some, hcx]
      rw [pySet_pyGet_same _ _ _ hx]
      exact ih ent (fun k hk => hf k (List.mem_cons_of_mem _ hk))
    · rw [if_neg h0]
      exact ih ent (fun k hk => hf k (List.mem_cons_of_mem _ hk))

/-- Stage 2 is the identity on its fixed points. -/
theorem stage2_of_fixed (d : List (String × PyVal)) (hf : headerFixed d) :
    repairStage2 d = d := by
  unfold repairStage2
  cases hget : pyGet d "entete" with
  | none => rfl
  | some v =>
    cases v with
    | dict ent =>
      dsimp only
      rw [coerceKeys_of_fixed _ _ (hf ent hget), pySet_pyGet_same _ _ _ hget]
    | none => rfl
    | str s => rfl
    | int n => rfl
    | bool b => rfl
    | list xs => rfl

/-- Stage 2 establishes its own fixed point. -/
theorem stage2_establishes (d : List (String × PyVal)) :
    headerFixed (repairStage2 d) := by
  unfold repairStage2
  cases hget : pyGet d "entete" with
  | none => intro ent hent; rw [hget] at hent; cases hent
  | some v =>
    cases v with
    | dict ent =>
      dsimp only
      intro ent' hent' hk
      rw [pyGet_pySet_same] at hent'
      cases hent'
      exact coerceKeys_establishes _ _ _
    | none => intro ent hent; rw [hget] at hent; cases hent
    | str s => intro ent hent; rw [hget] at hent; cases hent
    | int n => intro ent hent; rw [hget] at hent; cases hent
    | bool b => intro ent hent; rw [hget] at hent; cases hent
    | list xs => intro ent hent; rw [hget] at hent; cases hent

/-- Stage 2 only touches the header key. -/
theorem stage2_get_ne (d : List (String × PyVal)) (k : String)
    (hk : k ≠ "entete") : pyGet (repairStage2 d) k = pyGet d k := by
  unfold repairStage2
  cases hget : pyGet d "entete" with
  | none => rfl
  | some v =>
    cases v with
    | dict ent =>
      dsimp only
      exact pyGet_pySet_ne _ _ _ _ (fun h => hk h.symm)
    | none => rfl
    | str s => rfl
    | int n => rfl
    | bool b => rfl
    | list xs => rfl

/-- Stage 2 preserves key presence. -/
theorem stage2_hasKey (d : List (String × PyVal)) (k : String) :
    pyHasKey (repairStage2 d) k = pyHasKey d k := by
  unfold repairStage2
  cases hget : pyGet d "entete" with
  | none => rfl
  | some v =>
    cases v with
    | dict ent =>
      dsimp only
      refine pyHasKey_pySet_present _ _ _ _ ?_
      rw [pyHasKey_iff_pyGet, hget]
      rfl
    | none => rfl
    | str s => rfl
    | int n => rfl
    | bool b => rfl
    | list xs => rfl

/-- Stage 3a on an absent experiences key. -/
theorem stage3a_none (d : List (String × PyVal))
    (hget : pyGet d expKey = Option.none) :
    repairStage3a d = pySet d expKey (.list []) := by
  unfold repairStage3a; rw [hget]

/-- Stage 3a on a `None`-valued experiences key. -/
theorem stage3a_someNone (d : List (String × PyVal))
    (hget : pyGet d expKey = Option.some PyVal.none) :
    repairStage3a d = pySet d expKey (.list []) := by
  unfold repairStage3a; rw [hget]

/-- Stage 3a wraps a lone experience dict. -/
theorem stage3a_dict (d : List (String × PyVal)) (ex : List (String × PyVal))
    (hget : pyGet d expKey = Option.some (.dict ex)) :
    repairStage3a d = pySet d expKey (.list [.dict ex]) := by
  unfold repairStage3a; rw [hget]

/-- Stage 3a leaves a list-valued experiences key alone. -/
theorem stage3a_list (d : List (String × PyVal)) (xs : List PyVal)
    (hget : pyGet d expKey = Option.some (.list xs)) :
    repairStage3a d = d := by
  unfold repairStage3a; rw [hget]

/-- Stage 3a leaves a string-valued experiences key alone. -/
theorem stage3a_str (d : List (String × PyVal)) (s : String)
    (hget : pyGet d expKey = Option.some (.str s)) :
    repairStage3a d = d := by
  unfold repairStage3a; rw [hget]

/-- The element fixup map is idempotent. -/
theorem map_fixResp_idem (xs : List PyVal) :
    (xs.map fixResponsabilites).map fixResponsabilites =
      xs.map fixResponsabilites := by
  induction xs with
  | nil => rfl
  | cons x rest ih => simp [fixResp_idem, ih]

/-- Stage 3 is the identity on its fixed points. -/
theorem stage3_of_fixed (d : List (String × PyVal)) (hf : expFixed d) :
    repairStage3 d = Except.ok d := by
  obtain ⟨v, hv, hcase⟩ := hf
  rcases hcase with ⟨xs, rfl, hmap⟩ | ⟨s, rfl⟩
  · unfold repairStage3
    simp only [stage3a_list d xs hv, hv]
    rw [hmap, pySet_pyGet_same _ _ _ hv]
  · unfold repairStage3
    simp only [stage3a_str d s hv, hv]

/-- Stage 3 establishes its own fixed point. -/
theorem stage3_establishes (d d' : List (String × PyVal))
    (h : repairStage3 d = Except.ok d') : expFixed d' := by
  unfold repairStage3 at h
  cases hget : pyGet d expKey with
  | none =>
    simp only [stage3a_none d hget, pyGet_pySet_same] at h
    cases h
    rw [pySet_pySet_same]
    exact ⟨_, pyGet_pySet_same _ _ _, Or.inl ⟨_, rfl, map_fixResp_idem _⟩⟩
  | some v =>
    cases v with
    | none =>
      simp only [stage3a_someNone d hget, pyGet_pySet_same] at h
      cases h
      rw [pySet_pySet_same]
      exact ⟨_, pyGet_pySet_same _ _ _, Or.inl ⟨_, rfl, map_fixResp_idem _⟩⟩
    | dict ex =>
      simp only [stage3a_dict d ex hget, pyGet_pySet_same] at h
      cases h
      rw [pySet_pySet_same]
      exact ⟨_, pyGet_pySet_same _ _ _, Or.inl ⟨_, rfl, map_fixResp_idem _⟩⟩
    | list xs =>
      simp only [stage3a_list d xs hget, hget] at h
      cases h
      exact ⟨_, pyGet_pySet_same _ _ _, Or.inl ⟨_, rfl, map_fixResp_idem _⟩⟩
    | str s =>
      simp only [stage3a_str d s hget, hget] at h
      cases h
      exact ⟨_, hget, Or.inr ⟨s, rfl⟩⟩
    | int n =>
      simp only [show repairStage3a d = d by unfold repairStage3a; rw [hget],
        hget] at h
      exact Except.noConfusion h
    | bool b =>
      simp only [show repairStage3a d = d by unfold repairStage3a; rw [hget],
        hget] at h
      exact Except.noConfusion h

/-- Stage 3 only touches the experiences key. -/
theorem stage3_get_ne (d d' : List (String × PyVal)) (k : String)
    (h : repairStage3 d = Except.ok d') (hk : k ≠ expKey) :
    pyGet d' k = pyGet d k := by
  have hk' : expKey ≠ k := fun he => hk he.symm
  unfold repairStage3 at h
  cases hget : pyGet d expKey with
  | none =>
    simp only [stage3a_none d hget, pyGet_pySet_same] at h
    cases h
    rw [pySet_pySet_same, pyGet_pySet_ne _ _ _ _ hk']
  | some v =>
    cases v with
    | none =>
      simp only [stage3a_someNone d hget, pyGet_pySet_same] at h
      cases h
      rw [pySet_pySet_same, pyGet_pySet_ne _ _ _ _ hk']
    | dict ex =>
      simp only [stage3a_dict d ex hget, pyGet_pySet_same] at h
      cases h
      rw [pySet_pySet_same, pyGet_pySet_ne _ _ _ _ hk']
    | list xs =>
      simp only [stage3a_list d xs hget, hget] at h
      cases h
      rw [pyGet_pySet_ne _ _ _ _ hk']
    | str s =>
      simp only [stage3a_str d s hget, hget] at h
      cases h
      rfl
    | int n =>
      simp only [show repairStage3a d = d by unfold repairStage3a; rw [hget],
        hget] at h
      exact Except.noConfusion h
    | bool b =>
      simp only [show repairStage3a d = d by unfold repairStage3a; rw [hget],
        hget] at h
      exact Except.noConfusion h

/-- Stage 3 adds at most the experiences key. -/
theorem stage3_hasKey (d d' : List (String × PyVal))
    (h : repairStage3 d = Except.ok d') (k : String) :
    (pyHasKey d' k = true ↔ (pyHasKey d k = true ∨ k = expKey)) := by
  unfold repairStage3 at h
  cases hget : pyGet d expKey with
  | none =>
    simp only [stage3a_none d hget, pyGet_pySet_same] at h
    cases h
    rw [pySet_pySet_same, pyHasKey_pySet]
    simp only [Bool.or_eq_true, decide_eq_true_eq]
    constructor
    · rintro (h | h)
      · exact Or.inr h.symm
      · exact Or.inl h
    · rintro (h | h)
      · exact Or.inr h
      · exact Or.inl h.symm
  | some v =>
    have hpres : pyHasKey d expKey = true := by
      rw [pyHasKey_iff_pyGet, hget]; rfl
    have hiff : ∀ e' : List (String × PyVal),
        pyHasKey e' k = pyHasKey d k →
        (pyHasKey e' k = true ↔ (pyHasKey d k = true ∨ k = expKey)) := by
      intro e' he
      rw [he]
      constructor
      · exact Or.inl
      · rintro (h | h)
        · exact h
        · subst h; exact hpres
    cases v with
    | none =>
      simp only [stage3a_someNone d hget, pyGet_pySet_same] at h
      cases h
      exact hiff _ (by
        rw [pySet_pySet_same]
        exact pyHasKey_pySet_present _ _ _ _ hpres)
    | dict ex =>
      simp only [stage3a_dict d ex hget, pyGet_pySet_same] at h
      cases h
      exact hiff _ (by
        rw [pySet_pySet_same]
        exact pyHasKey_pySet_present _ _ _ _ hpres)
    | list xs =>
      simp only [stage3a_list d xs hget, hget] at h
      cases h
      exact hiff _ (pyHasKey_pySet_present _ _ _ _ hpres)
    | str s =>
      simp only [stage3a_str d s hget, hget] at h
      cases h
      exact hiff _ rfl
    | int n =>
      simp only [show repairStage3a d = d by unfold repairStage3a; rw [hget],
        hget] at h
      exact Except.noConfusion h
    | bool b =>
      simp only [show repairStage3a d = d by unfold repairStage3a; rw [hget],
        hget] at h
      exact Except.noConfusion h

/-- Stage 2 preserves the encadrement fixed point. -/
theorem encFixed_stage2 (d : List (String × PyVal)) (h : encFixed d) :
    encFixed (repairStage2 d) := by
  intro cf hcf hk
  rw [stage2_get_ne d cfKey (by decide)] at hcf
  exact h cf hcf hk

/-- Stage 3 preserves the encadrement fixed point. -/
theorem encFixed_stage3 (d d' : List (String × PyVal))
    (h3 : repairStage3 d = Except.ok d') (h : encFixed d) : encFixed d' := by
  intro cf hcf hk
  rw [stage3_get_ne d d' cfKey h3 (by decide)] at hcf
  exact h cf hcf hk

/-- Stage 3 preserves the header fixed point. -/
theorem headerFixed_stage3 (d d' : List (String × PyVal))
    (h3 : repairStage3 d = Except.ok d') (h : headerFixed d) : headerFixed d' := by
  intro ent hent
  rw [stage3_get_ne d d' "entete" h3 (by decide)] at hent
  exact h ent hent

/-- A successful repair of a payload exposes the staged dict computation. -/
theorem repairPass_ok_shape (v r : PyVal) (h : repairPass v = Except.ok r) :
    ∃ d d', v = PyVal.dict d ∧ r = PyVal.dict d' ∧
      repairStage3 (repairStage2 (repairStage1 d)) = Except.ok d' := by
  cases v with
  | dict d =>
    unfold repairPass at h
    dsimp only at h
    cases h3 : repairStage3 (repairStage2 (repairStage1 d)) with
    | error e => rw [h3] at h; simp [Except.map] at h
    | ok d' =>
      rw [h3] at h
      simp only [Except.map] at h
      cases h
      exact ⟨d, d', rfl, rfl, h3⟩
  | none => simp [repairPass] at h
  | str s => simp [repairPass] at h
  | int n => simp [repairPass] at h
  | bool b => simp [repairPass] at h
  | list xs => simp [repairPass] at h

/-- The `entete` value after stage 2, when it is a dict. -/
theorem stage2_entete_get (d : List (String × PyVal))
    (ent : List (String × PyVal))
    (hent : pyGet d "entete" = Option.some (.dict ent)) :
    pyGet (repairStage2 d) "entete" =
      Option.some (.dict (coerceKeys reparableHeaderKeys ent)) := by
  unfold repairStage2
  rw [hent]
  dsimp only
  exact pyGet_pySet_same _ _ _

/-- C5: the mechanical repair pass is idempotent — a successful repair is a
fixed point of the pass — and it fabricates no fields: the output payload
has exactly the input's top-level keys plus (at most) the defaulted
experiences key, and a dict-valued header keeps exactly its keys. -/
theorem claim_C5_repair_idempotent :
    (∀ v r, repairPass v = Except.ok r → repairPass r = Except.ok r) ∧
    (∀ v r, repairPass v = Except.ok r →
      ∃ d d', v = PyVal.dict d ∧ r = PyVal.dict d' ∧
        (∀ k, pyHasKey d' k = true ↔ (pyHasKey d k = true ∨ k = expKey)) ∧
        (∀ ent, pyGet d "entete" = Option.some (PyVal.dict ent) →
          ∃ ent', pyGet d' "entete" = Option.some (PyVal.dict ent') ∧
            ∀ k, pyHasKey ent' k = pyHasKey ent k)) := by
  constructor
  · intro v r h
    obtain ⟨d, d', rfl, rfl, h3⟩ := repairPass_ok_shape v r h
    have hP1 : encFixed d' :=
      encFixed_stage3 _ _ h3 (encFixed_stage2 _ (stage1_establishes d))
    have hP2 : headerFixed d' :=
      headerFixed_stage3 _ _ h3 (stage2_establishes (repairStage1 d))
    have hP3 : expFixed d' := stage3_establishes _ _ h3
    unfold repairPass
    dsimp only
    rw [stage1_of_fixed _ hP1, stage2_of_fixed _ hP2, stage3_of_fixed _ hP3]
    rfl
  · intro v r h
    obtain ⟨d, d', rfl, rfl, h3⟩ := repairPass_ok_shape v r h
    refine ⟨d, d', rfl, rfl, ?_, ?_⟩
    · intro k
      rw [stage3_hasKey _ _ h3 k, stage2_hasKey, stage1_hasKey]
    · intro ent hent
      have h1 : pyGet (repairStage1 d) "entete" = Option.some (.dict ent) := by
        rw [stage1_get_ne d "entete" (by decide)]
        exact hent
      have h2 := stage2_entete_get _ _ h1
      refine ⟨coerceKeys reparableHeaderKeys ent, ?_, fun k => coerceKeys_hasKey _ _ _⟩
      rw [stage3_get_ne _ _ "entete" h3 (by decide)]
      exact h2

/-- A concrete malformed payload: list-valued header and mentoring fields, a
lone experience dict with a newline-joined responsibilities string. -/
def repairExampleVal : PyVal := .dict
  [("entete", .dict [("prenom", .list [.str "Jean", .str "Paul"]),
     ("nom", .str "Dupont")]),
   ("competences_fonctionnelles", .dict
     [("encadrement", .list [.str "mentorat", .str "formation"])]),
   ("experiences_cles_recentes", .dict
     [("client", .str "X"),
      ("responsabilites", .str " dev \n\n revue ")])]

/-- Witness for C5 at the concrete malformed payload: the repair succeeds
and a second application reproduces its own output. -/
theorem claim_C5_witness :
    ∃ r, repairPass repairExampleVal = Except.ok r ∧
      repairPass r = Except.ok r :=
  ⟨_, rfl, claim_C5_repair_idempotent.1 repairExampleVal _ rfl⟩

/-! ## Length gate, ranking validation and retry budget (C2, C3, C4) -/

/-- A syntactically valid minimal comparison reply. -/
def goodCompareReply : PyVal := .dict
  [("results", .list [.dict [("filename", .str "cv1.pdf"), ("score", .int 90)]])]

/-- A mission text of 60 characters, comfortably over the gate. -/
def longMission : String := String.mk (List.replicate 60 'a')

/-- C2 counterexample: the claim says `compare`'s mission argument is gated
at 50 characters, but `compare_mission_with_cvs_async` performs no length
check — with a 10-character mission it still makes its one external call
and returns the validated result (the gate lives only in the HTTP route,
outside this function). -/
theorem claim_C2_counterexample :
    (pyStrip "trop court").length < 50 ∧
    compare_mission_with_cvs_async (fun _ => Except.ok goodCompareReply)
        "trop court" [PyVal.dict []] =
      (Except.ok ⟨[⟨"cv1.pdf", 90, [], [], Option.none, [], Option.none⟩]⟩, 1) :=
  ⟨by decide, rfl⟩

/-- C2 amended: `read` (all three document paths) and `extract` (both the
sync and async paths) enforce the 50-character gate on stripped text before
any external call — the empty string fails `extract` through the
missing-input branch instead — while the compare engine makes its single
external call whatever the mission length. -/
theorem claim_C2_amended_length_gate :
    (∀ s : String, (pyStrip s).length < 50 →
      read_txt_text s = Except.error "Text content insufficient") ∧
    (∀ pages : List String, pages ≠ [] →
      (pyStrip (String.intercalate "\n" (pages.filter fun p => p ≠ ""))).length < 50 →
      read_pdf_text pages =
        Except.error "PDF contains insufficient text (possible scanned document)") ∧
    (∀ paragraphs cells : List String,
      (pyStrip (String.intercalate "\n"
        ((paragraphs.map pyStrip).filter (fun p => p ≠ "") ++
          (cells.map pyStrip).filter (fun p => p ≠ "")))).length < 50 →
      read_docx_text paragraphs cells =
        Except.error "DOCX contains insufficient text") ∧
    (∀ (client : Nat → Except String PyVal) (s : String), s ≠ "" →
      (pyStrip s).length < 50 →
      extract_structured_async client s =
        (Except.error "CV text too short or empty", 0)) ∧
    (∀ client : Nat → Except String PyVal,
      extract_structured_async client "" =
        (Except.error "Extraction failed: Either cv_text or cv_file must be provided", 0)) ∧
    (∀ (client : Nat → Except String PyVal) (s : String), s ≠ "" →
      (pyStrip s).length < 50 →
      extract_structured client s =
        (Except.error "CV text too short or empty", 0)) ∧
    (∀ (client : Nat → Except String PyVal) (mission : String)
        (summaries : List PyVal),
      (compare_mission_with_cvs_async client mission summaries).2 = 1) := by
  refine ⟨?_, ?_, ?_, ?_, ?_, ?_, ?_⟩
  · intro s h
    simp only [read_txt_text]
    rw [if_pos h]
  · intro pages hne h
    simp only [read_pdf_text]
    rw [if_neg (by simpa [List.isEmpty_iff] using hne), if_pos h]
  · intro paragraphs cells h
    simp only [read_docx_text]
    rw [if_pos h]
  · intro client s hne h
    simp only [extract_structured_async]
    rw [if_neg hne, if_pos h]
  · intro client
    simp [extract_structured_async]
  · intro client s hne h
    simp only [extract_structured, call_openai_extraction, retry3]
    rw [if_neg hne, if_pos h]
  · intro client mission summaries
    unfold compare_mission_with_cvs_async
    cases client 0 with
    | error e => rfl
    | ok reply =>
      dsimp only
      cases parseCompareResults reply with
      | error e => rfl
      | ok v => rfl

/-- Witness for C2's amended theorem at concrete short inputs. -/
theorem claim_C2_witness :
    ((pyStrip "court").length < 50 ∧ ¬("court" = "")) ∧
    read_txt_text "court" = Except.error "Text content insufficient" ∧
    extract_structured_async (fun _ => Except.ok PyVal.none) "court" =
      (Except.error "CV text too short or empty", 0) ∧
    extract_structured (fun _ => Except.ok PyVal.none) "court" =
      (Except.error "CV text too short or empty", 0) ∧
    (compare_mission_with_cvs_async (fun _ => Except.error "api down")
      "court" []).2 = 1 := by
  refine ⟨⟨by decide, by decide⟩, ?_, ?_, ?_, ?_⟩
  · exact claim_C2_amended_length_gate.1 "court" (by decide)
  · exact claim_C2_amended_length_gate.2.2.2.1 _ "court" (by decide) (by decide)
  · exact claim_C2_amended_length_gate.2.2.2.2.2.1 _ "court" (by decide) (by decide)
  · exact claim_C2_amended_length_gate.2.2.2.2.2.2 _ "court" []

/-! ### C3: validation of the comparison reply -/

/-- The validated form of `badShapeReply`. -/
def badShapeResult : CompareResults :=
  ⟨[⟨"a.pdf", 88, [], ["w1", "w2", "w3", "w4", "w5", "w6"],
    Option.none, [], Option.none⟩]⟩

/-- A reply with one entry for two CVs, zero strengths and six weaknesses. -/
def badShapeReply : PyVal := .dict
  [("results", .list [.dict
    [("filename", .str "a.pdf"), ("score", .int 88),
     ("weaknesses", .list [.str "w1", .str "w2", .str "w3", .str "w4",
       .str "w5", .str "w6"])]])]

/-- C3 counterexample: with N = 2 CV summaries, a reply carrying a single
entry with zero strengths and six weaknesses passes validation and is
returned — the schema checks only the score range and field types, not the
entry count or the strengths/weaknesses bounds stated in the claim. -/
theorem claim_C3_counterexample :
    compare_mission_with_cvs_async (fun _ => Except.ok badShapeReply)
        longMission [PyVal.dict [], PyVal.dict []] =
      (Except.ok badShapeResult, 1) ∧
    badShapeResult.results.length = 1 ∧
    [PyVal.dict [], PyVal.dict []].length = 2 ∧
    ∀ item ∈ badShapeResult.results,
      item.strengths.length = 0 ∧ item.weaknesses.length = 6 :=
  ⟨rfl, rfl, rfl, by decide⟩

/-- A successfully mapped list takes each element from a successful
per-element validation. -/
theorem exceptMapM_ok_mem {α β : Type} (f : α → Except String β) :
    ∀ (xs : List α) (l : List β), exceptMapM f xs = Except.ok l →
      ∀ y ∈ l, ∃ x ∈ xs, f x = Except.ok y := by
  intro xs
  induction xs with
  | nil =>
    intro l h y hy
    simp [exceptMapM] at h
    subst h
    cases hy
  | cons x rest ih =>
    intro l h y hy
    unfold exceptMapM at h
    cases hf : f x with
    | error e => rw [hf] at h; simp [Except.bind] at h
    | ok y0 =>
      rw [hf] at h
      simp only [Except.bind] at h
      cases hrest : exceptMapM f rest with
      | error e => rw [hrest] at h; simp [Except.map] at h
      | ok ys =>
        rw [hrest] at h
        simp only [Except.map] at h
        cases h
        rcases List.mem_cons.mp hy with he | hm
        · subst he; exact ⟨x, List.mem_cons_self _ _, hf⟩
        · obtain ⟨x', hx', hfx'⟩ := ih ys hrest y hm
          exact ⟨x', List.mem_cons_of_mem _ hx', hfx'⟩

/-- A validated comparison item has its score in `[0, 100]`. -/
theorem parseCompareItem_score (x : PyVal) (item : CompareResultItem)
    (h : parseCompareItem x = Except.ok item) :
    0 ≤ item.score ∧ item.score ≤ 100 := by
  cases x with
  | dict kvs =>
    unfold parseCompareItem at h
    obtain ⟨fn, hfn, h⟩ := except_bind_ok _ _ _ h
    obtain ⟨sc, hsc, h⟩ := except_bind_ok _ _ _ h
    by_cases h0 : sc < 0
    · rw [if_pos h0] at h
      exact Except.noConfusion h
    · rw [if_neg h0] at h
      by_cases h100 : 100 < sc
      · rw [if_pos h100] at h
        exact Except.noConfusion h
      · rw [if_neg h100] at h
        obtain ⟨st, hst, h⟩ := except_bind_ok _ _ _ h
        obtain ⟨wk, hwk, h⟩ := except_bind_ok _ _ _ h
        obtain ⟨sm, hsm, h⟩ := except_bind_ok _ _ _ h
        obtain ⟨ms, hms, h⟩ := except_bind_ok _ _ _ h
        obtain ⟨rs, hrs, h⟩ := except_bind_ok _ _ _ h
        cases h
        exact ⟨(by omega : (0 : Int) ≤ sc), (by omega : sc ≤ 100)⟩
  | none => simp [parseCompareItem] at h
  | str s => simp [parseCompareItem] at h
  | int n => simp [parseCompareItem] at h
  | bool b => simp [parseCompareItem] at h
  | list xs => simp [parseCompareItem] at h

/-- C3 amended: the reply is validated against the `CompareResults` schema,
which enforces an integer score in `[0, 100]` on every entry (and the field
types), but neither the entry count N nor the 1-5/0-5 strengths/weaknesses
bounds — those are only requested in the prompt. -/
theorem claim_C3_amended_validation :
    (∀ reply v, parseCompareResults reply = Except.ok v →
      ∀ item ∈ v.results, 0 ≤ item.score ∧ item.score ≤ 100) ∧
    (∀ (client : Nat → Except String PyVal) (mission : String)
        (summaries : List PyVal) (v : CompareResults) (n : Nat),
      compare_mission_with_cvs_async client mission summaries =
        (Except.ok v, n) →
      ∀ item ∈ v.results, 0 ≤ item.score ∧ item.score ≤ 100) := by
  have hparse : ∀ reply v, parseCompareResults reply = Except.ok v →
      ∀ item ∈ v.results, 0 ≤ item.score ∧ item.score ≤ 100 := by
    intro reply v h item hitem
    cases reply with
    | dict kvs =>
      unfold parseCompareResults at h
      dsimp only at h
      cases hg : pyGet kvs "results" with
      | none => rw [hg] at h; exact Except.noConfusion h
      | some rv =>
        rw [hg] at h
        cases rv with
        | list xs =>
          dsimp only at h
          cases hm : exceptMapM parseCompareItem xs with
          | error e => rw [hm] at h; simp [Except.map] at h
          | ok l =>
            rw [hm] at h
            simp only [Except.map] at h
            cases h
            obtain ⟨x, hx, hfx⟩ := exceptMapM_ok_mem _ _ _ hm item hitem
            exact parseCompareItem_score _ _ hfx
        | none => exact Except.noConfusion h
        | str s => exact Except.noConfusion h
        | int n => exact Except.noConfusion h
        | bool b => exact Except.noConfusion h
        | dict kvs2 => exact Except.noConfusion h
    | none => simp [parseCompareResults] at h
    | str s => simp [parseCompareResults] at h
    | int n => simp [parseCompareResults] at h
    | bool b => simp [parseCompareResults] at h
    | list xs => simp [parseCompareResults] at h
  refine ⟨hparse, ?_⟩
  intro client mission summaries v n h
  unfold compare_mission_with_cvs_async at h
  cases hc : client 0 with
  | error e =>
    rw [hc] at h
    simp at h
  | ok reply =>
    rw [hc] at h
    dsimp only at h
    cases hp : parseCompareResults reply with
    | error e => rw [hp] at h; simp at h
    | ok v' =>
      rw [hp] at h
      simp only [Prod.mk.injEq] at h
      obtain ⟨hv, _⟩ := h
      injection hv with hveq
      subst hveq
      exact hparse reply _ hp

/-- Witness for C3's amended theorem at the concrete `badShapeReply`. -/
theorem claim_C3_witness :
    parseCompareResults badShapeReply = Except.ok badShapeResult ∧
    ∀ item ∈ badShapeResult.results, 0 ≤ item.score ∧ item.score ≤ 100 :=
  ⟨rfl, claim_C3_amended_validation.1 badShapeReply badShapeResult rfl⟩

/-! ### C4: retry budget -/

/-- A client that fails on attempts 0 and 1 and succeeds from attempt 2. -/
def failTwiceClient : Nat → Except String PyVal :=
  fun n => if n < 2 then Except.error "boom" else Except.ok goodCompareReply

/-- C4 counterexample: the claim says a client failing twice then
succeeding on the third attempt yields a successful `compare` result, but
`compare_mission_with_cvs_async` has no retry — it makes exactly one call
and surfaces the first failure as `LLMExtractionError`. -/
theorem claim_C4_counterexample :
    failTwiceClient 0 = Except.error "boom" ∧
    failTwiceClient 1 = Except.error "boom" ∧
    failTwiceClient 2 = Except.ok goodCompareReply ∧
    compare_mission_with_cvs_async failTwiceClient longMission [] =
      (Except.error "Compare LLM failed: boom", 1) :=
  ⟨rfl, rfl, rfl, rfl⟩

/-- C4 amended: the synchronous extraction path is wrapped in a 3-attempt
retry — failing twice then succeeding on the third attempt yields the
successful result after exactly 3 calls, and three failures surface the
last error with no 4th attempt — while the comparison engine makes exactly
one attempt and turns its first client failure into the compare error. -/
theorem claim_C4_amended_retry :
    (∀ (client : Nat → Except String PyVal) (e0 e1 : String) (r : PyVal),
      client 0 = Except.error e0 → client 1 = Except.error e1 →
      client 2 = Except.ok r →
      call_openai_extraction client = (Except.ok r, 3)) ∧
    (∀ (client : Nat → Except String PyVal) (e0 e1 e2 : String),
      client 0 = Except.error e0 → client 1 = Except.error e1 →
      client 2 = Except.error e2 →
      call_openai_extraction client = (Except.error e2, 3)) ∧
    (∀ (client : Nat → Except String PyVal) (cv_text : String)
        (e0 e1 : String) (r : PyVal) (d : DossierCompetences),
      ¬(cv_text = "") → ¬((pyStrip cv_text).length < 50) →
      client 0 = Except.error e0 → client 1 = Except.error e1 →
      client 2 = Except.ok r → parseDossier r = Except.ok d →
      extract_structured client cv_text = (Except.ok d, 3)) ∧
    (∀ (client : Nat → Except String PyVal) (mission : String)
        (summaries : List PyVal) (e : String),
      client 0 = Except.error e →
      compare_mission_with_cvs_async client mission summaries =
        (Except.error ("Compare LLM failed: " ++ e), 1)) := by
  have hretry : ∀ (client : Nat → Except String PyVal) (e0 e1 : String),
      client 0 = Except.error e0 → client 1 = Except.error e1 →
      call_openai_extraction client = (client 2, 3) := by
    intro client e0 e1 h0 h1
    unfold call_openai_extraction retry3
    rw [h0, h1]
  refine ⟨?_, ?_, ?_, ?_⟩
  · intro client e0 e1 r h0 h1 h2
    rw [hretry client e0 e1 h0 h1, h2]
  · intro client e0 e1 e2 h0 h1 h2
    rw [hretry client e0 e1 h0 h1, h2]
  · intro client cv_text e0 e1 r d hne hlen h0 h1 h2 hd
    simp only [extract_structured]
    rw [if_neg hne, if_neg hlen, hretry client e0 e1 h0 h1, h2]
    dsimp only
    rw [hd]
  · intro client mission summaries e h0
    unfold compare_mission_with_cvs_async
    rw [h0]

/-- A minimal schema-valid extraction reply: the three required keys with
empty bodies, everything else defaulted. -/
def goodDossierReply : PyVal := .dict
  [("entete", .dict []), ("competences_techniques", .dict []),
   ("competences_fonctionnelles", .dict [])]

/-- A client failing twice then returning the valid extraction reply. -/
def failTwiceExtractClient : Nat → Except String PyVal :=
  fun n => if n < 2 then Except.error "boom" else Except.ok goodDossierReply

/-- Witness for C4's amended theorem at concrete clients. -/
theorem claim_C4_witness :
    (∃ d, parseDossier goodDossierReply = Except.ok d ∧
      extract_structured failTwiceExtractClient longMission = (Except.ok d, 3)) ∧
    call_openai_extraction (fun _ => Except.error "down") =
      (Except.error "down", 3) ∧
    compare_mission_with_cvs_async failTwiceClient longMission [] =
      (Except.error "Compare LLM failed: boom", 1) := by
  refine ⟨⟨_, rfl, ?_⟩, ?_, ?_⟩
  · exact claim_C4_amended_retry.2.2.1 failTwiceExtractClient longMission
      "boom" "boom" goodDossierReply _ (by decide) (by decide) rfl rfl rfl rfl
  · exact claim_C4_amended_retry.2.1 (fun _ => Except.error "down")
      "down" "down" "down" rfl rfl rfl
  · exact claim_C4_amended_retry.2.2.2 failTwiceClient longMission [] "boom" rfl

end CvAnalyzer
